import Mathlib

/-!
Shallow embedding of the task-scheduling / task-tracking / report-generation
core of the repository (TaskScheduler in src/enterprise-platform/app.js,
TaskTracker and ReportGenerator in src/unnamed/part_003), together with
theorems settling the specification claims about it.

JavaScript `Map` objects are embedded as insertion-ordered association lists
with unique keys; JS timestamps (`Date.now()`, ISO strings) are threaded as
explicit `Nat` parameters; truthiness of optional values is made explicit at
each use site, mirroring the `||` / `?.` expressions of the source.
-/

namespace MultiAgentDsl

/-- JS `Map.has`: key membership in an insertion-ordered association list. -/
def mapHas : List (String × α) → String → Bool
  | [], _ => false
  | kv :: rest, k => kv.1 = k || mapHas rest k

/-- JS `Map.get`: lookup, `none` standing for `undefined`. -/
def mapGet : List (String × α) → String → Option α
  | [], _ => none
  | kv :: rest, k => if kv.1 = k then some kv.2 else mapGet rest k

/-- JS `Map.set`: overwrite the binding in place if the key exists
(keys are unique, insertion order preserved), otherwise append. -/
def mapSet : List (String × α) → String → α → List (String × α)
  | [], k, v => [(k, v)]
  | kv :: rest, k, v => if kv.1 = k then (k, v) :: rest else kv :: mapSet rest k v

/-- JS `Map.delete`: remove the binding for a key. -/
def mapDelete : List (String × α) → String → List (String × α)
  | [], _ => []
  | kv :: rest, k => if kv.1 = k then mapDelete rest k else kv :: mapDelete rest k

/-! ## TaskScheduler (src/enterprise-platform/app.js, lines 3805-4013)

`window.platform.agents` is passed as an explicit list of agent descriptors;
the simulated random outcome of `runTask` is an explicit oracle
`exec : Task → Bool` (`true` = the promise resolves, `false` = it rejects).
The `setTimeout` retry callbacks of `handleTaskFailure` are collected in a
`pendingRetries` buffer and delivered after the current tick, mirroring the
fact that a timer never fires inside the synchronous body of a tick. -/

/-- Agent descriptor as looked up by `selectAgent`. `capabilities = none`
models an agent object without a `capabilities` field. -/
structure Agent where
  id : String
  status : String
  currentTasks : List String
  capabilities : Option (List String)
deriving DecidableEq, Repr

/-- Task record as created/scheduled by the scheduler. `priority = none` and
`requiredCapabilities = none` model absent fields; an absent task id is the
empty string (falsy in JS). -/
structure Task where
  id : String
  name : String
  priority : Option String
  requiredCapabilities : Option (List String)
  attempts : Nat
  maxAttempts : Nat
  status : String
  scheduledAt : Nat
  startTime : Option Nat
  endTime : Option Nat
  assignedAgent : Option String
  error : Option String
deriving DecidableEq, Repr

structure SchedulerConfig where
  maxConcurrentTasks : Nat
  maxTasksPerAgent : Nat
  retryAttempts : Nat
  retryDelay : Nat
deriving DecidableEq, Repr

/-- `this.schedulerConfig` from the TaskScheduler constructor. -/
def defaultSchedulerConfig : SchedulerConfig :=
  { maxConcurrentTasks := 50
    maxTasksPerAgent := 5
    retryAttempts := 3
    retryDelay := 1000 }

structure SchedulerState where
  queues : List (String × List Task)
  runningTasks : List (String × Task)
  completedTasks : List Task
  failedTasks : List Task
  pendingRetries : List Task
deriving DecidableEq, Repr

/-- The freshly constructed scheduler. -/
def emptySchedulerState : SchedulerState :=
  { queues := []
    runningTasks := []
    completedTasks := []
    failedTasks := []
    pendingRetries := [] }

/-- `task.priority || 'medium'`: the only falsy string is the empty one. -/
def effectivePriority (task : Task) : String :=
  match task.priority with
  | none => "medium"
  | some p => if p = "" then "medium" else p

/-- `TaskScheduler.scheduleTask` (app.js:3835). `nextId` stands for the value
`this.generateTaskId()` would produce, used only when `task.id` is falsy.
Note that the scheduled record always gets `attempts: 0`, even when the
incoming task is a retry that already carries a positive attempt counter. -/
def scheduleTask (cfg : SchedulerConfig) (st : SchedulerState) (now : Nat)
    (nextId : String) (task : Task) : SchedulerState × Task :=
  let priority := effectivePriority task
  let queues := if mapHas st.queues priority then st.queues
                else mapSet st.queues priority []
  let scheduledTask : Task :=
    { task with
      id := if task.id = "" then nextId else task.id
      scheduledAt := now
      attempts := 0
      maxAttempts := if task.maxAttempts = 0 then cfg.retryAttempts
                     else task.maxAttempts
      status := "queued" }
  let q := (mapGet queues priority).getD []
  ({ st with queues := mapSet queues priority (q ++ [scheduledTask]) },
   scheduledTask)

/-- `TaskScheduler.canExecuteMoreTasks` (app.js:3889). -/
def canExecuteMoreTasks (cfg : SchedulerConfig) (st : SchedulerState) : Bool :=
  st.runningTasks.length < cfg.maxConcurrentTasks

/-- The filter predicate inside `TaskScheduler.selectAgent` (app.js:3934).
The source computes
`task.requiredCapabilities?.every(cap => agent.capabilities?.includes(cap)) || true`;
since `e || true` is truthy for every value of `e`, the capability conjunct
is inoperative.  The dead subexpression is kept here verbatim. -/
def agentQualifies (cfg : SchedulerConfig) (task : Task) (agent : Agent) :
    Bool :=
  let isReady := agent.status = "ready"
  let hasCapacity := agent.currentTasks.length < cfg.maxTasksPerAgent
  let capabilityCheck : Option Bool :=
    task.requiredCapabilities.map
      (fun caps => caps.all (fun cap => (agent.capabilities.getD []).contains cap))
  let hasRequiredCapabilities := capabilityCheck.getD false || true
  isReady && hasCapacity && hasRequiredCapabilities

/-- Stable insertion into a load-sorted agent list: the new element goes in
front of the first agent whose load is not smaller, so among equal loads the
earlier element of the original array stays first. -/
def insertByLoad (x : Agent) : List Agent → List Agent
  | [] => [x]
  | y :: ys =>
    if y.currentTasks.length < x.currentTasks.length then y :: insertByLoad x ys
    else x :: y :: ys

/-- Stable sort by `currentTasks.length` ascending: the semantics ES2019
guarantees for `availableAgents.sort((a, b) => loadA - loadB)`. -/
def sortByLoad : List Agent → List Agent
  | [] => []
  | x :: xs => insertByLoad x (sortByLoad xs)

/-- `TaskScheduler.selectAgent` (app.js:3934): filter, then the stable sort
by current load, then take the first element. -/
def selectAgent (cfg : SchedulerConfig) (agents : List Agent) (task : Task) :
    Option Agent :=
  let available := agents.filter (agentQualifies cfg task)
  if available.isEmpty then none
  else (sortByLoad available).head?

/-- The first two statements of `executeTask`: mark the task running and set
its start time. -/
def startTask (task : Task) (now : Nat) : Task :=
  { task with status := "running", startTime := some now }

/-- The record produced by `TaskScheduler.handleTaskFailure` (app.js:3977)
before the retry decision: attempts incremented, status failed, error and end
time recorded. -/
def failedRecord (task : Task) (now : Nat) (errMsg : String) : Task :=
  { task with
    attempts := task.attempts + 1
    status := "failed"
    error := some errMsg
    endTime := some now }

/-- `TaskScheduler.handleTaskFailure` (app.js:3977).  If the incremented
counter is still below `maxAttempts` the `setTimeout` callback will set the
status to `retrying` and call `scheduleTask`; it is buffered in
`pendingRetries` until the end of the tick.  Otherwise the task lands in
`failedTasks` for good. -/
def handleTaskFailure (cfg : SchedulerConfig) (st : SchedulerState) (now : Nat)
    (task : Task) (errMsg : String) : SchedulerState :=
  let task := failedRecord task now errMsg
  let st := { st with runningTasks := mapDelete st.runningTasks task.id }
  -- the `setTimeout` backoff delay; it only affects when the buffered retry
  -- fires, which the untimed model delivers at the end of the tick
  let _delay := cfg.retryDelay * task.attempts
  if task.attempts < task.maxAttempts then
    { st with pendingRetries := st.pendingRetries ++ [{ task with status := "retrying" }] }
  else
    { st with failedTasks := st.failedTasks ++ [task] }

/-- `TaskScheduler.executeTask` (app.js:3893).  A missing agent raises and is
routed through `handleTaskFailure`, exactly like a rejected `runTask`. -/
def executeTask (cfg : SchedulerConfig) (agents : List Agent)
    (exec : Task → Bool) (st : SchedulerState) (now : Nat) (task : Task) :
    SchedulerState :=
  let task := startTask task now
  let st := { st with runningTasks := mapSet st.runningTasks task.id task }
  match selectAgent cfg agents task with
  | none => handleTaskFailure cfg st now task "没有可用的智能体"
  | some agent =>
    let task := { task with assignedAgent := some agent.id }
    if exec task then
      let task := { task with status := "completed", endTime := some now }
      { st with
        runningTasks := mapDelete st.runningTasks task.id
        completedTasks := st.completedTasks ++ [task] }
    else
      handleTaskFailure cfg st now task "任务执行失败"

/-- The `while (queue.length > 0 && this.canExecuteMoreTasks())` loop of
`processQueues`, on the queue fetched for one priority level.  Returns the
final state, the unprocessed remainder of the queue, and the list of tasks
passed to `executeTask`, in order. -/
def runQueue (cfg : SchedulerConfig) (agents : List Agent)
    (exec : Task → Bool) (now : Nat) :
    SchedulerState → List Task → SchedulerState × List Task × List Task
  | st, [] => (st, [], [])
  | st, t :: rest =>
    if canExecuteMoreTasks cfg st then
      let st' := executeTask cfg agents exec st now t
      let (st'', remaining, log) := runQueue cfg agents exec now st' rest
      (st'', remaining, t :: log)
    else (st, t :: rest, [])

/-- One iteration of the `for (const priority of priorityOrder)` body of
`processQueues`: fetch the queue (an absent level contributes a fresh empty
array that never lands in the map), drain it, write back the remainder. -/
def processLevel (cfg : SchedulerConfig) (agents : List Agent)
    (exec : Task → Bool) (now : Nat) (st : SchedulerState) (priority : String) :
    SchedulerState × List Task :=
  match mapGet st.queues priority with
  | none => (st, [])
  | some queue =>
    let (st', remaining, log) := runQueue cfg agents exec now st queue
    ({ st' with queues := mapSet st'.queues priority remaining }, log)

def priorityOrder : List String := ["critical", "high", "medium", "low"]

/-- `TaskScheduler.processQueues` (app.js:3875); also returns the dispatch
log, i.e. the tasks handed to `executeTask` in order. -/
def processQueues (cfg : SchedulerConfig) (agents : List Agent)
    (exec : Task → Bool) (now : Nat) (st : SchedulerState) :
    SchedulerState × List Task :=
  priorityOrder.foldl
    (fun acc priority =>
      let (st', log) := processLevel cfg agents exec now acc.1 priority
      (st', acc.2 ++ log))
    (st, [])

/-- `TaskScheduler.checkRunningTasks` (app.js:4007): tasks running longer
than 5 minutes are failed. -/
def checkRunningTasks (cfg : SchedulerConfig) (st : SchedulerState)
    (now : Nat) : SchedulerState :=
  st.runningTasks.foldl
    (fun acc kv =>
      if now - (kv.2.startTime.getD 0) > 300000 then
        handleTaskFailure cfg acc now kv.2 "任务执行超时"
      else acc)
    st

/-- Deliver the buffered `setTimeout` retry callbacks: each sets the status
to `retrying` and calls `scheduleTask` (app.js:3995). -/
def flushRetries (cfg : SchedulerConfig) (st : SchedulerState) (now : Nat) :
    SchedulerState :=
  st.pendingRetries.foldl
    (fun acc t => (scheduleTask cfg acc now t.id { t with status := "retrying" }).1)
    { st with pendingRetries := [] }

/-- One iteration of `scheduleLoop` (app.js:3862) followed by the retry
timers that fire during the 1 s sleep. -/
def tick (cfg : SchedulerConfig) (agents : List Agent) (exec : Task → Bool)
    (now : Nat) (st : SchedulerState) : SchedulerState :=
  let st := (processQueues cfg agents exec now st).1
  let st := checkRunningTasks cfg st now
  flushRetries cfg st now

/-- `n` scheduler ticks at second intervals starting at time `now`. -/
def tickN (cfg : SchedulerConfig) (agents : List Agent) (exec : Task → Bool)
    (now : Nat) (st : SchedulerState) : Nat → SchedulerState
  | 0 => st
  | n + 1 => tickN cfg agents exec (now + 1000) (tick cfg agents exec now st) n

/-! ## TaskTracker (src/unnamed/part_003, lines 6-290)

Timestamps are explicit `now` parameters.  The `data` payload of
`addTaskPhase` is only ever inspected for its `agent` field, which is
modelled as an `Option String`.  `console` logging and the fire-and-forget
report generation inside `completeTask` have no further effect on tracker
state and are dropped. -/

structure Phase where
  type : String
  description : String
  status : String
  timestamp : Nat
  duration : Option Nat
  agent : String
deriving DecidableEq, Repr

structure ErrorRecord where
  timestamp : Nat
  message : String
  agent : String
  phase : String
deriving DecidableEq, Repr

structure SensorUsage where
  calls : Nat
  totalDataSize : Nat
  totalProcessingTime : Nat
deriving DecidableEq, Repr

structure TaskMetrics where
  dataProcessingTime : Nat
  apiCalls : Nat
  cacheHits : Nat
  accuracy : Option Nat
deriving DecidableEq, Repr

structure TrackedTask where
  id : String
  description : String
  priority : String
  status : String
  createdAt : Nat
  startTime : Option Nat
  endTime : Option Nat
  duration : Option Nat
  phases : List Phase
  agentsInvolved : List String
  sensorDataUsed : List (String × SensorUsage)
  results : Option String
  errors : List ErrorRecord
  metrics : TaskMetrics
deriving DecidableEq, Repr

structure PerformanceMetrics where
  totalTasks : Nat
  successfulTasks : Nat
  failedTasks : Nat
  averageExecutionTime : Rat
  agentUtilization : List (String × Nat)
deriving DecidableEq, Repr

/-- The metrics object of the TaskTracker constructor. -/
def initialPerformanceMetrics : PerformanceMetrics :=
  { totalTasks := 0
    successfulTasks := 0
    failedTasks := 0
    averageExecutionTime := 0
    agentUtilization :=
      [("traffic", 0), ("weather", 0), ("parking", 0), ("security", 0)] }

structure TrackerState where
  activeTasks : List (String × TrackedTask)
  completedTasks : List TrackedTask
  taskHistory : List (TrackedTask × Nat)
  performanceMetrics : PerformanceMetrics
deriving DecidableEq, Repr

def emptyTrackerState : TrackerState :=
  { activeTasks := []
    completedTasks := []
    taskHistory := []
    performanceMetrics := initialPerformanceMetrics }

/-- `TaskTracker.addTaskPhase` (part_003:60).  Silently a no-op when the task
id is not active.  `dataAgent` is the `agent` field of the `data` argument. -/
def addTaskPhase (st : TrackerState) (now : Nat) (taskId : String)
    (phaseType : String) (description : String) (status : String)
    (dataAgent : Option String) : TrackerState :=
  match mapGet st.activeTasks taskId with
  | none => st
  | some task =>
    let phase : Phase :=
      { type := phaseType
        description := description
        status := status
        timestamp := now
        duration := none
        agent := dataAgent.getD "system" }
    let task := { task with phases := task.phases ++ [phase] }
    let task :=
      match dataAgent with
      | some a =>
        if a ∈ task.agentsInvolved then task
        else { task with agentsInvolved := task.agentsInvolved ++ [a] }
      | none => task
    { st with activeTasks := mapSet st.activeTasks taskId task }

/-- `TaskTracker.createTaskTracker` (part_003:29): a fresh record followed by
the initialization phase. -/
def createTaskTracker (st : TrackerState) (now : Nat) (taskId : String)
    (description : String) (priority : String) : TrackerState :=
  let task : TrackedTask :=
    { id := taskId
      description := description
      priority := priority
      status := "created"
      createdAt := now
      startTime := none
      endTime := none
      duration := none
      phases := []
      agentsInvolved := []
      sensorDataUsed := []
      results := none
      errors := []
      metrics := { dataProcessingTime := 0, apiCalls := 0, cacheHits := 0,
                   accuracy := none } }
  let st := { st with activeTasks := mapSet st.activeTasks taskId task }
  addTaskPhase st now taskId "initialization" "任务初始化" "info" none

/-- `TaskTracker.updatePerformanceMetrics` (part_003:183).  The average is
recomputed over the completed-task list of the state in which it runs. -/
def updatePerformanceMetrics (st : TrackerState) (task : TrackedTask) :
    TrackerState :=
  let m := st.performanceMetrics
  let m := { m with totalTasks := m.totalTasks + 1 }
  let m :=
    if task.status = "completed" then
      { m with successfulTasks := m.successfulTasks + 1 }
    else if task.status = "failed" then
      { m with failedTasks := m.failedTasks + 1 }
    else m
  let totalDuration : Nat :=
    st.completedTasks.foldl (fun sum t => sum + t.duration.getD 0) 0
  let m := { m with averageExecutionTime :=
               (totalDuration : Rat) / (st.completedTasks.length : Rat) }
  let m := task.agentsInvolved.foldl
    (fun acc agent =>
      match mapGet acc.agentUtilization agent with
      | some n =>
        { acc with agentUtilization := mapSet acc.agentUtilization agent (n + 1) }
      | none => acc)
    m
  { st with performanceMetrics := m }

/-- `TaskTracker.completeTask` (part_003:159): move the record out of the
active map, archive it, update the aggregate metrics.  Report generation is
side-effect free on the tracker. -/
def completeTask (st : TrackerState) (now : Nat) (taskId : String) :
    TrackerState :=
  match mapGet st.activeTasks taskId with
  | none => st
  | some task =>
    let st := { st with
      activeTasks := mapDelete st.activeTasks taskId
      completedTasks := st.completedTasks ++ [task]
      taskHistory := st.taskHistory ++ [(task, now)] }
    updatePerformanceMetrics st task

/-- `TaskTracker.updateTaskStatus` (part_003:88).  The status is mutated
first, then a `status_change` phase is recorded, then the special cases run
on the phase-extended record. -/
def updateTaskStatus (st : TrackerState) (now : Nat) (taskId : String)
    (status : String) (detailsAgent : Option String) : TrackerState :=
  match mapGet st.activeTasks taskId with
  | none => st
  | some task =>
    let previousStatus := task.status
    let task := { task with status := status }
    let st := { st with activeTasks := mapSet st.activeTasks taskId task }
    let st := addTaskPhase st now taskId "status_change"
      ("状态变更: " ++ previousStatus ++ " → " ++ status) status detailsAgent
    if status = "running" then
      match mapGet st.activeTasks taskId with
      | none => st
      | some task =>
        let task :=
          if task.startTime = none then { task with startTime := some now }
          else task
        { st with activeTasks := mapSet st.activeTasks taskId task }
    else if status = "completed" ∨ status = "failed" then
      match mapGet st.activeTasks taskId with
      | none => st
      | some task =>
        let task := { task with
          endTime := some now
          duration := some (now - (task.startTime.getD task.createdAt)) }
        let st := { st with activeTasks := mapSet st.activeTasks taskId task }
        completeTask st now taskId
    else st

/-- `TaskTracker.recordSensorDataUsage` (part_003:112). -/
def recordSensorDataUsage (st : TrackerState) (taskId : String)
    (sensorType : String) (dataSize : Nat) (processingTime : Nat) :
    TrackerState :=
  match mapGet st.activeTasks taskId with
  | none => st
  | some task =>
    let bucket := (mapGet task.sensorDataUsed sensorType).getD
      { calls := 0, totalDataSize := 0, totalProcessingTime := 0 }
    let bucket :=
      { bucket with
        calls := bucket.calls + 1
        totalDataSize := bucket.totalDataSize + dataSize
        totalProcessingTime := bucket.totalProcessingTime + processingTime }
    let task := { task with
      sensorDataUsed := mapSet task.sensorDataUsed sensorType bucket
      metrics := { task.metrics with
        dataProcessingTime := task.metrics.dataProcessingTime + processingTime
        apiCalls := task.metrics.apiCalls + 1 } }
    { st with activeTasks := mapSet st.activeTasks taskId task }

/-- `TaskTracker.recordError` (part_003:138). -/
def recordError (st : TrackerState) (now : Nat) (taskId : String)
    (message : String) (agent : String) : TrackerState :=
  match mapGet st.activeTasks taskId with
  | none => st
  | some task =>
    let errorRecord : ErrorRecord :=
      { timestamp := now
        message := message
        agent := agent
        phase := match task.phases.getLast? with
                 | some p => p.type
                 | none => "unknown" }
    let task := { task with errors := task.errors ++ [errorRecord] }
    let st := { st with activeTasks := mapSet st.activeTasks taskId task }
    addTaskPhase st now taskId "error" ("错误: " ++ message) "error"
      (some agent)

/-- `TaskTracker.cleanupOldTasks` (part_003:236): drop archive entries older
than one week. -/
def cleanupOldTasks (st : TrackerState) (now : Nat) : TrackerState :=
  let oneWeekAgo := now - 7 * 24 * 60 * 60 * 1000
  { st with
    completedTasks := st.completedTasks.filter
      (fun task => oneWeekAgo < (task.endTime.getD task.createdAt))
    taskHistory := st.taskHistory.filter (fun tc => oneWeekAgo < tc.2) }

/-- `TaskTracker.getTaskStatus` (part_003:202): active map first, then the
completed archive. -/
def getTaskStatus (st : TrackerState) (taskId : String) :
    Option TrackedTask :=
  match mapGet st.activeTasks taskId with
  | some task => some task
  | none => st.completedTasks.find? (fun task => task.id = taskId)

/-- The tracker operations a caller can drive the state with, each one a
public method of `TaskTracker`. -/
inductive TrackerOp where
  | create (now : Nat) (taskId description priority : String)
  | addPhase (now : Nat) (taskId phaseType description status : String)
      (dataAgent : Option String)
  | updateStatus (now : Nat) (taskId status : String)
      (detailsAgent : Option String)
  | recordSensor (taskId sensorType : String) (dataSize processingTime : Nat)
  | recordErr (now : Nat) (taskId message agent : String)
  | complete (now : Nat) (taskId : String)
  | cleanup (now : Nat)
deriving DecidableEq, Repr

def applyOp (st : TrackerState) : TrackerOp → TrackerState
  | .create now taskId description priority =>
      createTaskTracker st now taskId description priority
  | .addPhase now taskId phaseType description status dataAgent =>
      addTaskPhase st now taskId phaseType description status dataAgent
  | .updateStatus now taskId status detailsAgent =>
      updateTaskStatus st now taskId status detailsAgent
  | .recordSensor taskId sensorType dataSize processingTime =>
      recordSensorDataUsage st taskId sensorType dataSize processingTime
  | .recordErr now taskId message agent =>
      recordError st now taskId message agent
  | .complete now taskId => completeTask st now taskId
  | .cleanup now => cleanupOldTasks st now

def applyOps (ops : List TrackerOp) : TrackerState :=
  ops.foldl applyOp emptyTrackerState

/-- Phase lists only ever grow by appending. -/
def phasesExtends (t t' : TrackedTask) : Prop :=
  ∃ ext, t'.phases = t.phases ++ ext

/-! ## ReportGenerator (src/unnamed/part_003, lines 293-560)

Numeric formatting: JS `toFixed(n)` is modelled exactly on rationals with
round-half-up (JS rounds half away from zero; all quantities here are
nonnegative, so the two agree up to double-precision noise, which a rational
model cannot and need not reproduce).  `toLocaleTimeString` and
`toISOString` are environment-fixed injective renderings of the timestamp;
their concrete digits are immaterial to every claim, so they are modelled as
tagged decimal strings. -/

/-- Modelled rendering of `new Date(t).toLocaleTimeString()`. -/
def localeTimeString (t : Nat) : String := "time:" ++ toString t

/-- Modelled rendering of `new Date(t).toISOString()`. -/
def isoTimeString (t : Nat) : String := "iso:" ++ toString t

/-- `q.toFixed(1)` as an integer number of tenths. -/
def toFixed1 (q : Rat) : Int := ⌊q * 10 + 1 / 2⌋

/-- `q.toFixed(1)` rendered with the trailing digit kept, as JS does. -/
def fixed1String (q : Rat) : String :=
  let t := toFixed1 q
  toString (t / 10) ++ "." ++ toString (t % 10)

/-- `parseFloat(q.toFixed(1)).toString()`: the trailing `.0` is dropped. -/
def fixed1TrimString (q : Rat) : String :=
  let t := toFixed1 q
  if t % 10 = 0 then toString (t / 10)
  else toString (t / 10) ++ "." ++ toString (t % 10)

/-- `q.toFixed(2)` rendered with both digits kept. -/
def fixed2String (q : Rat) : String :=
  let t : Int := ⌊q * 100 + 1 / 2⌋
  let frac := t % 100
  toString (t / 100) ++ "." ++
    (if frac < 10 then "0" ++ toString frac else toString frac)

/-- `ReportGenerator.formatDuration` (part_003:503).  `if (!ms)` is truthy
for a missing duration and for `0` alike. -/
def formatDuration (ms : Option Nat) : String :=
  match ms with
  | none => "N/A"
  | some m =>
    if m = 0 then "N/A"
    else
      let seconds := m / 1000
      let minutes := seconds / 60
      let hours := minutes / 60
      if hours > 0 then
        toString hours ++ "小时" ++ toString (minutes % 60) ++ "分钟"
      else if minutes > 0 then
        toString minutes ++ "分钟" ++ toString (seconds % 60) ++ "秒"
      else
        toString seconds ++ "秒"

/-- `ReportGenerator.formatDataSize` (part_003:517);
`Math.floor(Math.log(bytes) / Math.log(1024))` is `Nat.log 1024` on positive
naturals, and an index past `GB` reads `undefined` out of the array. -/
def formatDataSize (bytes : Nat) : String :=
  if bytes = 0 then "0 B"
  else
    let i := Nat.log 1024 bytes
    let sizes := ["B", "KB", "MB", "GB"]
    fixed1TrimString ((bytes : Rat) / (1024 : Rat) ^ i) ++ " " ++
      sizes.getD i "undefined"

/-- `ReportGenerator.formatRelativeTime` (part_003:525). -/
def formatRelativeTime (ms : Nat) : String := "+" ++ formatDuration (some ms)

/-- `ReportGenerator.calculateSuccessRate` (part_003:529), over the phase
list of the record. -/
def calculateSuccessRate (task : TrackedTask) : String :=
  let totalPhases := task.phases.length
  let errorPhases := (task.phases.filter (fun p => p.status = "error")).length
  fixed1String (((totalPhases : Rat) - (errorPhases : Rat)) /
    (totalPhases : Rat) * 100) ++ "%"

/-- `ReportGenerator.calculateAverageProcessingTime` (part_003:535). -/
def calculateAverageProcessingTime (phases : List Phase) : String :=
  if phases.isEmpty then "N/A"
  else
    let totalTime : Nat := phases.foldl (fun sum p => sum + p.duration.getD 0) 0
    fixed1String ((totalTime : Rat) / (phases.length : Rat)) ++ "ms"

/-- `ReportGenerator.calculateDataEfficiency` (part_003:541). -/
def calculateDataEfficiency (data : SensorUsage) : String :=
  fixed2String ((data.totalDataSize : Rat) / (data.totalProcessingTime : Rat))
    ++ " KB/ms"

structure ExecutionSummary where
  status : String
  duration : String
  agentsInvolved : Nat
  phasesCompleted : Nat
  errorsEncountered : Nat
  dataProcessed : String
deriving DecidableEq, Repr

structure TimelineEntry where
  timestamp : String
  relativeTime : String
  phase : String
  description : String
  status : String
  agent : String
deriving DecidableEq, Repr

structure AgentPerformance where
  phasesHandled : Nat
  errorsGenerated : Nat
  successRate : String
  averageProcessingTime : String
deriving DecidableEq, Repr

structure DataUsageEntry where
  calls : Nat
  totalDataSize : String
  averageProcessingTime : String
  efficiency : String
deriving DecidableEq, Repr

structure Recommendation where
  type : String
  priority : String
  description : String
  details : List String
deriving DecidableEq, Repr

structure ReportMetadata where
  generatedAt : String
  taskDuration : String
  successRate : String
deriving DecidableEq, Repr

structure TaskReport where
  taskId : String
  title : String
  executionSummary : ExecutionSummary
  timeline : List TimelineEntry
  agentPerformance : List (String × AgentPerformance)
  dataUsage : List (String × DataUsageEntry)
  results : Option String
  recommendations : List Recommendation
  metadata : ReportMetadata
deriving DecidableEq, Repr

/-- `ReportGenerator.generateExecutionSummary` (part_003:324). -/
def generateExecutionSummary (task : TrackedTask) : ExecutionSummary :=
  { status := task.status
    duration := formatDuration task.duration
    agentsInvolved := task.agentsInvolved.length
    phasesCompleted := task.phases.length
    errorsEncountered := task.errors.length
    dataProcessed := formatDataSize
      (task.sensorDataUsed.foldl (fun sum kv => sum + kv.2.totalDataSize) 0) }

/-- `ReportGenerator.generateTimeline` (part_003:340). -/
def generateTimeline (task : TrackedTask) : List TimelineEntry :=
  task.phases.map (fun phase =>
    { timestamp := localeTimeString phase.timestamp
      relativeTime := formatRelativeTime (phase.timestamp - task.createdAt)
      phase := phase.type
      description := phase.description
      status := phase.status
      agent := phase.agent })

/-- `ReportGenerator.analyzeAgentPerformance` (part_003:352). -/
def analyzeAgentPerformance (task : TrackedTask) :
    List (String × AgentPerformance) :=
  task.agentsInvolved.map (fun agent =>
    let agentPhases := task.phases.filter (fun phase => phase.agent = agent)
    let agentErrors := task.errors.filter (fun e => e.agent = agent)
    (agent,
     { phasesHandled := agentPhases.length
       errorsGenerated := agentErrors.length
       successRate :=
         if agentPhases.length > 0 then
           fixed1String (((agentPhases.length : Rat) -
             (agentErrors.length : Rat)) / (agentPhases.length : Rat) * 100)
             ++ "%"
         else "N/A"
       averageProcessingTime := calculateAverageProcessingTime agentPhases }))

/-- `ReportGenerator.analyzeSensorDataUsage` (part_003:372). -/
def analyzeSensorDataUsage (task : TrackedTask) :
    List (String × DataUsageEntry) :=
  task.sensorDataUsed.map (fun kv =>
    (kv.1,
     { calls := kv.2.calls
       totalDataSize := formatDataSize kv.2.totalDataSize
       averageProcessingTime :=
         fixed1String ((kv.2.totalProcessingTime : Rat) / (kv.2.calls : Rat))
           ++ "ms"
       efficiency := calculateDataEfficiency kv.2 }))

/-- `ReportGenerator.generateRecommendations` (part_003:387).  The
`details` strings of the latter two rules are single strings in the source,
modelled as singleton lists. -/
def generateRecommendations (task : TrackedTask) : List Recommendation :=
  (if task.errors.length > 0 then
    [{ type := "error_prevention"
       priority := "high"
       description := "检测到错误，建议增强错误处理机制"
       details := task.errors.map (fun e => e.message) }]
   else []) ++
  (if task.duration.getD 0 > 30000 then
    [{ type := "performance_optimization"
       priority := "medium"
       description := "任务执行时间较长，建议优化处理流程"
       details := ["考虑并行处理或缓存优化"] }]
   else []) ++
  (if task.sensorDataUsed.foldl (fun sum kv => sum + kv.2.calls) 0 > 10 then
    [{ type := "data_optimization"
       priority := "low"
       description := "数据调用频率较高，建议启用更智能的缓存策略"
       details := ["可以减少API调用次数并提升响应速度"] }]
   else [])

/-- `ReportGenerator.generateTaskReport` (part_003:303).  `now` is the wall
clock read by `new Date().toISOString()` in the metadata block. -/
def generateTaskReport (task : TrackedTask) (now : Nat) : TaskReport :=
  { taskId := task.id
    title := "任务执行报告 - " ++ task.description
    executionSummary := generateExecutionSummary task
    timeline := generateTimeline task
    agentPerformance := analyzeAgentPerformance task
    dataUsage := analyzeSensorDataUsage task
    results := task.results
    recommendations := generateRecommendations task
    metadata :=
      { generatedAt := isoTimeString now
        taskDuration := formatDuration task.duration
        successRate :=
          if task.errors.length = 0 then "100%" else calculateSuccessRate task } }

structure HealthAssessment where
  score : Int
  status : String
  issues : List String
deriving DecidableEq, Repr

/-- `ReportGenerator.assessSystemHealth` (part_003:470).  The source divides
by `totalTasks` in floating point: with zero tasks both rates are `NaN`, and
every comparison against `NaN` is false, hence the explicit non-zero guards
on the two rate tests.  The intermediate `status` variable of the source is
dead (the returned status is recomputed from the score) and is omitted. -/
def assessSystemHealth (metrics : PerformanceMetrics) : HealthAssessment :=
  let total := metrics.totalTasks
  let errorRateHigh : Bool :=
    decide (total ≠ 0) && decide ((metrics.failedTasks : Rat) / (total : Rat) > 1 / 10)
  let avgTooLong : Bool := decide (metrics.averageExecutionTime > 20000)
  let successRateLow : Bool :=
    decide (total ≠ 0) && decide ((metrics.successfulTasks : Rat) / (total : Rat) < 9 / 10)
  let healthScore : Int := 100
  let issues : List String := []
  let healthScore := if errorRateHigh then healthScore - 30 else healthScore
  let issues := if errorRateHigh then issues ++ ["错误率较高"] else issues
  let healthScore := if avgTooLong then healthScore - 20 else healthScore
  let issues := if avgTooLong then issues ++ ["平均执行时间过长"] else issues
  let healthScore := if successRateLow then healthScore - 25 else healthScore
  let issues := if successRateLow then issues ++ ["成功率偏低"] else issues
  { score := max healthScore 0
    status := if healthScore > 80 then "excellent"
              else if healthScore > 60 then "good" else "poor"
    issues := if issues.isEmpty then ["系统运行正常"] else issues }

/-- The recent-window success rate observed by
`TaskTracker.analyzePerformancePatterns` (part_003:252):
`completedTasks.slice(-20)`. -/
def recentSuccessRate (completed : List TrackedTask) : Rat :=
  let recent := completed.drop (completed.length - 20)
  ((recent.filter (fun t => t.status = "completed")).length : Rat) /
    (recent.length : Rat)

/-! ## Interleaved view of the dispatch loop

`executeTask` is awaited, so a tick interleaves queue pops, completions and
failures; the claims about what holds "at every instant" are stated against
the small-step view below, whose steps are the state mutations the source
performs between suspension points: `scheduleTask` calls, the head of
`executeTask` (pop + insert into `runningTasks`, guarded by
`canExecuteMoreTasks`), the resolve branch of `runTask`, the reject /
no-agent / timeout paths (all `handleTaskFailure`), and the retry timers. -/

inductive SchedStep (cfg : SchedulerConfig) :
    SchedulerState → SchedulerState → Prop where
  | submit (st : SchedulerState) (now : Nat) (nextId : String) (task : Task) :
      SchedStep cfg st (scheduleTask cfg st now nextId task).1
  | dispatch (st : SchedulerState) (p : String) (task : Task)
      (rest : List Task) (now : Nat) :
      p ∈ priorityOrder →
      mapGet st.queues p = some (task :: rest) →
      canExecuteMoreTasks cfg st = true →
      SchedStep cfg st
        { st with
          queues := mapSet st.queues p rest
          runningTasks :=
            mapSet st.runningTasks (startTask task now).id (startTask task now) }
  | complete (st : SchedulerState) (taskId : String) (task : Task) (now : Nat) :
      mapGet st.runningTasks taskId = some task →
      SchedStep cfg st
        { st with
          runningTasks := mapDelete st.runningTasks taskId
          completedTasks := st.completedTasks ++
            [{ task with status := "completed", endTime := some now }] }
  | fail (st : SchedulerState) (taskId : String) (task : Task) (now : Nat)
      (errMsg : String) :
      mapGet st.runningTasks taskId = some task →
      SchedStep cfg st (handleTaskFailure cfg st now task errMsg)
  | flushRetry (st : SchedulerState) (r : Task) (rest : List Task) (now : Nat) :
      st.pendingRetries = r :: rest →
      SchedStep cfg st
        (scheduleTask cfg { st with pendingRetries := rest } now r.id
          { r with status := "retrying" }).1

/-- Reflexive-transitive closure of the scheduler steps. -/
def SchedReach (cfg : SchedulerConfig) : SchedulerState → SchedulerState → Prop :=
  Relation.ReflTransGen (SchedStep cfg)

/-- `a` is handed to `executeTask` strictly before `b` in a dispatch log. -/
def dispatchedBefore (log : List Task) (a b : Task) : Prop :=
  ∃ u v w, log = u ++ a :: v ++ b :: w

/-! ## Concrete inputs used by the witnesses and counterexamples -/

/-- A task submitted with `maxAttempts = 3` whose execution will always be
made to fail. -/
def alwaysFailingTask : Task :=
  { id := "t1", name := "always-fails", priority := some "medium",
    requiredCapabilities := none, attempts := 0, maxAttempts := 3,
    status := "", scheduledAt := 0, startTime := none, endTime := none,
    assignedAgent := none, error := none }

/-- An idle ready agent. -/
def readyAgent : Agent :=
  { id := "a1", status := "ready", currentTasks := [], capabilities := some [] }

/-- State with `alwaysFailingTask` freshly scheduled. -/
def c1Start : SchedulerState :=
  (scheduleTask defaultSchedulerConfig emptySchedulerState 0 "t1"
    alwaysFailingTask).1

/-- The scheduler state after three dispatch/execute cycles in which every
execution fails. -/
def c1Final : SchedulerState :=
  tickN defaultSchedulerConfig [readyAgent] (fun _ => false) 1000 c1Start 3

/-- A scheduled task with a single permitted attempt. -/
def singleAttemptTask : Task :=
  { id := "t2", name := "one-shot", priority := some "medium",
    requiredCapabilities := none, attempts := 0, maxAttempts := 1,
    status := "queued", scheduledAt := 0, startTime := none, endTime := none,
    assignedAgent := none, error := none }

/-- `singleAttemptTask` queued at level `medium`, no workers registered. -/
def c2Start : SchedulerState :=
  { emptySchedulerState with queues := [("medium", [singleAttemptTask])] }

def c2Final : SchedulerState :=
  tick defaultSchedulerConfig [] (fun _ => true) 0 c2Start

/-- A task declaring a required capability. -/
def capTask : Task :=
  { id := "t3", name := "needs-nlp", priority := some "high",
    requiredCapabilities := some ["nlp"], attempts := 0, maxAttempts := 3,
    status := "queued", scheduledAt := 0, startTime := none, endTime := none,
    assignedAgent := none, error := none }

/-- A ready idle agent whose capability set is empty, so it misses the
capability `capTask` declares. -/
def bareAgent : Agent :=
  { id := "a2", status := "ready", currentTasks := [], capabilities := some [] }

/-- A task submitted under the unrecognized priority string `urgent`. -/
def urgentTask : Task :=
  { id := "t4", name := "urgent-one", priority := some "urgent",
    requiredCapabilities := none, attempts := 0, maxAttempts := 3,
    status := "", scheduledAt := 0, startTime := none, endTime := none,
    assignedAgent := none, error := none }

def c4Result : SchedulerState × Task :=
  scheduleTask defaultSchedulerConfig emptySchedulerState 0 "t4" urgentTask

/-- The record `scheduleTask` makes of `urgentTask`. -/
def urgentScheduled : Task := c4Result.2

/-- State whose only queue is the orphaned `urgent` one. -/
def c5Start : SchedulerState :=
  { emptySchedulerState with queues := [("urgent", [urgentScheduled])] }

/-- Queues for the dispatch-order witness: one critical task, two medium. -/
def orderTaskA : Task := { alwaysFailingTask with id := "A", priority := some "critical" }
def orderTaskB : Task := { alwaysFailingTask with id := "B", priority := some "medium" }
def orderTaskC : Task := { alwaysFailingTask with id := "C", priority := some "medium" }

def c7Start : SchedulerState :=
  { emptySchedulerState with
    queues := [("medium", [orderTaskB, orderTaskC]), ("critical", [orderTaskA])] }

/-- A finalized tracked task with one agent phase, one error and some sensor
usage, as `completeTask` archives it. -/
def sampleCompletedTask : TrackedTask :=
  { id := "task-1"
    description := "sample"
    priority := "high"
    status := "completed"
    createdAt := 1000
    startTime := some 2000
    endTime := some 42000
    duration := some 40000
    phases :=
      [{ type := "initialization", description := "任务初始化", status := "info",
         timestamp := 1000, duration := none, agent := "system" },
       { type := "data_collection", description := "collect", status := "info",
         timestamp := 2000, duration := some 500, agent := "traffic" },
       { type := "error", description := "错误: boom", status := "error",
         timestamp := 3000, duration := none, agent := "traffic" }]
    agentsInvolved := ["traffic"]
    sensorDataUsed := [("traffic", { calls := 2, totalDataSize := 2048,
                                     totalProcessingTime := 100 })]
    results := some "ok"
    errors := [{ timestamp := 3000, message := "boom", agent := "traffic",
                 phase := "data_collection" }]
    metrics := { dataProcessingTime := 100, apiCalls := 2, cacheHits := 0,
                 accuracy := none } }

/-- Strip the one wall-clock field of a report. -/
def stripGeneratedAt (r : TaskReport) : TaskReport :=
  { r with metadata := { r.metadata with generatedAt := "" } }

/-- Status of the i-th task of the C9 history: tasks 10, 11 and 12 fail, the
other 27 complete, so the three failures sit inside the last-20 window. -/
def c9Status (i : Nat) : String :=
  if 10 ≤ i ∧ i < 13 then "failed" else "completed"

/-- Drive the tracker through 30 create/finalize cycles. -/
def c9Ops : List TrackerOp :=
  (List.range 30).flatMap (fun i =>
    [TrackerOp.create (i * 1000) ("t" ++ toString i) "job" "medium",
     TrackerOp.updateStatus (i * 1000) ("t" ++ toString i) (c9Status i) none])

def c9State : TrackerState := applyOps c9Ops

/-- The C10 tracker invariant: every observable task record — any active
record a lookup can return, and every archived record — has a non-empty
phase list opening with the initialization phase. -/
def PhasesInv (st : TrackerState) : Prop :=
  (∀ id t, mapGet st.activeTasks id = some t → t.phases ≠ [] ∧
    (t.phases.head?.map (fun p => p.type)) = some "initialization") ∧
  (∀ t ∈ st.completedTasks, t.phases ≠ [] ∧
    (t.phases.head?.map (fun p => p.type)) = some "initialization")

/-- Between two tracker states, every still-active record is an append-only
phase extension of its predecessor under the same id. -/
def ActMono (st st' : TrackerState) : Prop :=
  ∀ id t', mapGet st'.activeTasks id = some t' →
    ∃ t, mapGet st.activeTasks id = some t ∧ phasesExtends t t'

/-- Between two tracker states, every archived record was already archived
(and untouched) or is a phase extension of a formerly active record. -/
def CompMono (st st' : TrackerState) : Prop :=
  ∀ t' ∈ st'.completedTasks,
    t' ∈ st.completedTasks ∨
    ∃ id t, mapGet st.activeTasks id = some t ∧ phasesExtends t t'

/-- Aggregate metrics with a cumulative success rate below 90%. -/
def c9LowMetrics : PerformanceMetrics :=
  { totalTasks := 10
    successfulTasks := 8
    failedTasks := 2
    averageExecutionTime := 0
    agentUtilization := [] }

/-- The queue stored for one priority level (`this.queues.get(p) || []`). -/
def levelQueue (st : SchedulerState) (p : String) : List Task :=
  (mapGet st.queues p).getD []

/-! ## Association-list (JS Map) lemmas -/

theorem mapGet_mapSet_self (m : List (String × α)) (k : String) (v : α) :
    mapGet (mapSet m k v) k = some v := by
  induction m with
  | nil => simp [mapGet, mapSet]
  | cons hd tl ih =>
    by_cases h : hd.1 = k
    · simp [mapGet, mapSet, h]
    · simp [mapGet, mapSet, h, ih]

theorem mapGet_mapSet_ne (m : List (String × α)) (k k' : String) (v : α)
    (h : k ≠ k') : mapGet (mapSet m k v) k' = mapGet m k' := by
  induction m with
  | nil => simp [mapGet, mapSet, h]
  | cons hd tl ih =>
    by_cases hhd : hd.1 = k
    · simp [mapGet, mapSet, hhd, h, hhd ▸ h]
    · by_cases hhd' : hd.1 = k'
      · simp [mapGet, mapSet, hhd, hhd', h.symm]
      · simp [mapGet, mapSet, hhd, hhd', ih]

theorem mapGet_eq_none_of_not_mapHas (m : List (String × α)) (k : String)
    (h : mapHas m k = false) : mapGet m k = none := by
  induction m with
  | nil => rfl
  | cons hd tl ih =>
    simp only [mapHas, Bool.or_eq_false_iff, decide_eq_false_iff_not] at h
    simp [mapGet, h.1, ih h.2]

theorem mapDelete_mapSet_of_not_mapHas (m : List (String × α)) (k : String)
    (v : α) (h : mapHas m k = false) : mapDelete (mapSet m k v) k = m := by
  induction m with
  | nil => simp [mapSet, mapDelete]
  | cons hd tl ih =>
    simp only [mapHas, Bool.or_eq_false_iff, decide_eq_false_iff_not] at h
    simp [mapSet, mapDelete, h.1, ih h.2]

theorem length_mapSet_le (m : List (String × α)) (k : String) (v : α) :
    (mapSet m k v).length ≤ m.length + 1 := by
  induction m with
  | nil => simp [mapSet]
  | cons hd tl ih =>
    by_cases h : hd.1 = k
    · simp [mapSet, h]
    · simpa [mapSet, h] using Nat.succ_le_succ ih

theorem length_mapDelete_le (m : List (String × α)) (k : String) :
    (mapDelete m k).length ≤ m.length := by
  induction m with
  | nil => simp [mapDelete]
  | cons hd tl ih =>
    by_cases h : hd.1 = k
    · simp only [mapDelete, if_pos h]
      exact le_trans ih (Nat.le_succ _)
    · simpa [mapDelete, h] using Nat.succ_le_succ ih

/-! ## Scheduler lemmas -/

theorem scheduleTask_appends (cfg : SchedulerConfig) (st : SchedulerState)
    (now : Nat) (nextId : String) (task : Task) :
    mapGet (scheduleTask cfg st now nextId task).1.queues
        (effectivePriority task)
      = some (((mapGet st.queues (effectivePriority task)).getD []) ++
          [(scheduleTask cfg st now nextId task).2]) := by
  unfold scheduleTask
  by_cases h : mapHas st.queues (effectivePriority task)
  · simp [h, mapGet_mapSet_self]
  · have hn : mapGet st.queues (effectivePriority task) = none :=
      mapGet_eq_none_of_not_mapHas _ _ (by simpa using h)
    simp [h, mapGet_mapSet_self, hn]

theorem scheduleTask_attempts_zero (cfg : SchedulerConfig)
    (st : SchedulerState) (now : Nat) (nextId : String) (task : Task) :
    ((scheduleTask cfg st now nextId task).2).attempts = 0 := rfl

theorem executeTask_queues (cfg : SchedulerConfig) (agents : List Agent)
    (exec : Task → Bool) (st : SchedulerState) (now : Nat) (task : Task) :
    (executeTask cfg agents exec st now task).queues = st.queues := by
  unfold executeTask
  cases hsel : selectAgent cfg agents (startTask task now) <;>
    simp only [hsel, handleTaskFailure] <;> split_ifs <;> rfl

theorem executeTask_runningTasks_nil (cfg : SchedulerConfig)
    (agents : List Agent) (exec : Task → Bool) (st : SchedulerState)
    (now : Nat) (task : Task) (h : st.runningTasks = []) :
    (executeTask cfg agents exec st now task).runningTasks = [] := by
  unfold executeTask
  cases hsel : selectAgent cfg agents (startTask task now) <;>
    simp only [hsel, handleTaskFailure] <;>
    split_ifs <;>
    simp [h, mapSet, mapDelete, failedRecord, startTask]

theorem executeTask_pendingRetries (cfg : SchedulerConfig)
    (agents : List Agent) (exec : Task → Bool) (st : SchedulerState)
    (now : Nat) (task : Task) :
    ∀ t ∈ (executeTask cfg agents exec st now task).pendingRetries,
      t ∈ st.pendingRetries ∨ effectivePriority t = effectivePriority task := by
  intro t ht
  unfold executeTask at ht
  cases hsel : selectAgent cfg agents (startTask task now) <;>
    simp only [hsel, handleTaskFailure] at ht
  · split at ht
    · simp only [List.mem_append, List.mem_singleton] at ht
      rcases ht with ht | ht
      · exact Or.inl ht
      · right; rw [ht]; rfl
    · exact Or.inl ht
  · split at ht
    · exact Or.inl ht
    · split at ht
      · simp only [List.mem_append, List.mem_singleton] at ht
        rcases ht with ht | ht
        · exact Or.inl ht
        · right; rw [ht]; rfl
      · exact Or.inl ht

/-! ## Claims C1, C3, C4 -/

/-- C1: the claim predicts that a task submitted with `maxAttempts = 3`
whose execution always fails ends with terminal status `failed` and
`attempts == 3` after three dispatch/execute cycles.  The code disagrees:
`scheduleTask` resets `attempts` to `0` on every (re-)submission, so after
three failing cycles the task is again queued with `attempts = 0`, the
failed archive is empty, and the retry loop never terminates.  The first
conjunct isolates the culprit: every scheduled record carries
`attempts = 0`. -/
theorem c1_attempts_reset_defeats_retry_bound :
    (∀ (cfg : SchedulerConfig) (st : SchedulerState) (now : Nat)
      (nextId : String) (task : Task),
      ((scheduleTask cfg st now nextId task).2).attempts = 0) ∧
    c1Final.failedTasks = [] ∧
    (mapGet c1Final.queues "medium").map
        (fun q => q.map (fun t => (t.status, t.attempts, t.maxAttempts)))
      = some [("queued", 0, 3)] := by
  refine ⟨fun cfg st now nextId task => rfl, by decide, by decide⟩

/-- C3: the claim says a worker missing a declared required capability is
never selected.  In the code the filter computes
`task.requiredCapabilities?.every(...) || true`, which is identically true,
so capability matching is inoperative: the qualification predicate reduces
to the ready-status and load checks alone (first conjunct), and the sole
ready idle agent with an empty capability set is selected for a task that
requires `nlp` (second conjunct). -/
theorem c3_capability_filter_inoperative :
    (∀ (cfg : SchedulerConfig) (task : Task) (agent : Agent),
      agentQualifies cfg task agent =
        (decide (agent.status = "ready") &&
         decide (agent.currentTasks.length < cfg.maxTasksPerAgent))) ∧
    selectAgent defaultSchedulerConfig [bareAgent] capTask = some bareAgent ∧
    capTask.requiredCapabilities = some ["nlp"] ∧
    bareAgent.capabilities = some [] := by
  refine ⟨fun cfg task agent => ?_, by decide, rfl, rfl⟩
  simp [agentQualifies]

/-- C4 counterexample: submitting a task whose priority is the unrecognized
string `urgent` neither defaults it to `medium` nor rejects it: the record
is enqueued, with status `queued`, under a queue keyed `urgent` itself, and
no `medium` queue is ever created. -/
theorem c4_unrecognized_priority_enqueued_as_is :
    mapGet c4Result.1.queues "urgent" = some [urgentScheduled] ∧
    mapGet c4Result.1.queues "medium" = none ∧
    urgentScheduled.status = "queued" ∧
    urgentScheduled.priority = some "urgent" := by
  refine ⟨by decide, by decide, rfl, rfl⟩

/-- C4 amended: `scheduleTask` performs no validation; the priority defaults
to `medium` exactly when the field is absent or the empty string
(`task.priority || 'medium'`), and otherwise the record is appended, with
status `queued`, to the tail of the queue keyed by the submitted priority
string itself, recognized or not. -/
theorem c4_submit_appends_to_priority_key :
    ∀ (cfg : SchedulerConfig) (st : SchedulerState) (now : Nat)
      (nextId : String) (task : Task),
      mapGet (scheduleTask cfg st now nextId task).1.queues
          (effectivePriority task)
        = some (((mapGet st.queues (effectivePriority task)).getD []) ++
            [(scheduleTask cfg st now nextId task).2]) ∧
      ((scheduleTask cfg st now nextId task).2).status = "queued" ∧
      effectivePriority { task with priority := none } = "medium" ∧
      effectivePriority { task with priority := some "" } = "medium" := by
  intro cfg st now nextId task
  exact ⟨scheduleTask_appends cfg st now nextId task, rfl, rfl, rfl⟩

/-! ## Claim C2 -/

/-- C2 counterexample: one `medium` task with `maxAttempts = 1` is queued
and no worker is registered.  The claim predicts the task stays queued with
`attempts` unchanged and no error recorded; instead, after one tick the
queue is empty and the task sits in the terminal `failed` archive with
`attempts = 1` and the no-agent error message. -/
theorem c2_no_worker_consumes_attempt :
    mapGet c2Final.queues "medium" = some [] ∧
    c2Final.failedTasks.map (fun t => (t.id, t.status, t.attempts, t.error))
      = [("t2", "failed", 1, some "没有可用的智能体")] := by
  exact ⟨by decide, by decide⟩

/-- C2 amended: when no worker qualifies at dispatch time, `executeTask`
raises internally and the task goes through `handleTaskFailure` like any
execution failure: its attempt counter is incremented and an error is
recorded; the queues are untouched during the tick (the task is in
particular not pushed back to the head), and afterwards the task is either
buffered for re-submission (which will re-append it to the tail of its
queue with status `retrying` recorded) when the incremented counter is
still below `maxAttempts`, or moved permanently to `failedTasks`
otherwise.  Worker unavailability therefore does consume a retry attempt. -/
theorem c2_no_agent_goes_through_failure_path
    (cfg : SchedulerConfig) (agents : List Agent) (exec : Task → Bool)
    (st : SchedulerState) (now : Nat) (task : Task)
    (h : selectAgent cfg agents (startTask task now) = none) :
    (executeTask cfg agents exec st now task).queues = st.queues ∧
    (failedRecord (startTask task now) now "没有可用的智能体").attempts
        = task.attempts + 1 ∧
    (if (failedRecord (startTask task now) now "没有可用的智能体").attempts <
        (failedRecord (startTask task now) now "没有可用的智能体").maxAttempts then
      (executeTask cfg agents exec st now task).pendingRetries
          = st.pendingRetries ++
            [{ failedRecord (startTask task now) now "没有可用的智能体" with
               status := "retrying" }] ∧
      (executeTask cfg agents exec st now task).failedTasks = st.failedTasks
    else
      (executeTask cfg agents exec st now task).failedTasks
          = st.failedTasks ++
            [failedRecord (startTask task now) now "没有可用的智能体"] ∧
      (executeTask cfg agents exec st now task).pendingRetries
          = st.pendingRetries) := by
  refine ⟨executeTask_queues cfg agents exec st now task, rfl, ?_⟩
  unfold executeTask
  simp only [h, handleTaskFailure]
  split_ifs <;> exact ⟨rfl, rfl⟩

/-- C2 witness: the amended theorem applied to the concrete no-worker
scenario. -/
theorem c2_no_agent_witness :
    selectAgent defaultSchedulerConfig [] (startTask singleAttemptTask 0)
        = none ∧
    (executeTask defaultSchedulerConfig [] (fun _ => true)
        emptySchedulerState 0 singleAttemptTask).queues
      = emptySchedulerState.queues :=
  ⟨by decide,
   (c2_no_agent_goes_through_failure_path defaultSchedulerConfig []
     (fun _ => true) emptySchedulerState 0 singleAttemptTask (by decide)).1⟩

/-! ## Claim C8 -/

/-- C8 counterexample: `generateTaskReport` reads the wall clock — the
metadata block stamps `generatedAt: new Date().toISOString()` — so two runs
on the same immutable completed record at different instants produce
different outputs, contradicting the claimed round trip. -/
theorem c8_report_reads_wall_clock :
    generateTaskReport sampleCompletedTask 0
      ≠ generateTaskReport sampleCompletedTask 1 := by
  intro h
  have h' := congrArg (fun r => r.metadata.generatedAt) h
  exact absurd h' (by decide)

/-- C8 amended: report generation does not mutate its input (it is a pure
function of the record and of the generation instant), and every field
except `metadata.generatedAt` depends only on the record: stripping that
one wall-clock stamp makes two runs at arbitrary instants identical.  The
`generatedAt` field itself is exactly the ISO rendering of the generation
instant. -/
theorem c8_report_deterministic_up_to_generatedAt :
    ∀ (task : TrackedTask) (t₁ t₂ : Nat),
      stripGeneratedAt (generateTaskReport task t₁)
          = stripGeneratedAt (generateTaskReport task t₂) ∧
      (generateTaskReport task t₁).metadata.generatedAt = isoTimeString t₁ :=
  fun _ _ _ => ⟨rfl, rfl⟩

/-! ## Claim C6 -/

theorem schedStep_running_le (cfg : SchedulerConfig) {s s' : SchedulerState}
    (step : SchedStep cfg s s')
    (h : s.runningTasks.length ≤ cfg.maxConcurrentTasks) :
    s'.runningTasks.length ≤ cfg.maxConcurrentTasks := by
  cases step with
  | submit now nextId task => exact h
  | dispatch p task rest now hp hq hcan =>
    have hlt : s.runningTasks.length < cfg.maxConcurrentTasks := by
      simpa [canExecuteMoreTasks] using hcan
    exact le_trans (length_mapSet_le s.runningTasks _ _) hlt
  | complete taskId task now hq =>
    exact le_trans (length_mapDelete_le s.runningTasks taskId) h
  | fail taskId task now errMsg hq =>
    unfold handleTaskFailure
    dsimp only
    split_ifs <;>
      exact le_trans (length_mapDelete_le s.runningTasks _) h
  | flushRetry r rest now hp => exact h

/-- C6: in every state the scheduler can reach, the number of records in the
running set stays within `maxConcurrentTasks`: the only step that grows the
set — the head of `executeTask`, reached from the `processQueues` pop — is
guarded by `canExecuteMoreTasks`, i.e. it fires only while the running count
is strictly below the bound, for every interleaving of submissions,
dispatches, completions, failures and retry timers. -/
theorem c6_running_at_most_maxConcurrentTasks (cfg : SchedulerConfig)
    (st₀ st : SchedulerState)
    (h0 : st₀.runningTasks.length ≤ cfg.maxConcurrentTasks)
    (h : SchedReach cfg st₀ st) :
    st.runningTasks.length ≤ cfg.maxConcurrentTasks := by
  induction h with
  | refl => exact h0
  | tail _ step ih => exact schedStep_running_le cfg step ih

/-- C6 witness: the bound holds along a concrete submission step from the
fresh scheduler. -/
theorem c6_running_bound_witness :
    emptySchedulerState.runningTasks.length
        ≤ defaultSchedulerConfig.maxConcurrentTasks ∧
    ((scheduleTask defaultSchedulerConfig emptySchedulerState 0 "t1"
        alwaysFailingTask).1).runningTasks.length
      ≤ defaultSchedulerConfig.maxConcurrentTasks :=
  ⟨by decide,
   c6_running_at_most_maxConcurrentTasks defaultSchedulerConfig
     emptySchedulerState _ (by decide)
     (Relation.ReflTransGen.single
       (SchedStep.submit emptySchedulerState 0 "t1" alwaysFailingTask))⟩

/-! ## Claim C7 -/

theorem dispatchedBefore_of_mem_append {l₁ l₂ : List Task} {a b : Task}
    (ha : a ∈ l₁) (hb : b ∈ l₂) : dispatchedBefore (l₁ ++ l₂) a b := by
  obtain ⟨u, v, hu⟩ := List.append_of_mem ha
  obtain ⟨w, x, hw⟩ := List.append_of_mem hb
  exact ⟨u, v ++ w, x, by simp [hu, hw]⟩

theorem dispatchedBefore_append_right {l post : List Task} {a b : Task}
    (h : dispatchedBefore l a b) : dispatchedBefore (l ++ post) a b := by
  obtain ⟨u, v, w, hl⟩ := h
  exact ⟨u, v, w ++ post, by simp [hl]⟩

theorem dispatchedBefore_append_left {l : List Task} (pre : List Task)
    {a b : Task} (h : dispatchedBefore l a b) :
    dispatchedBefore (pre ++ l) a b := by
  obtain ⟨u, v, w, hl⟩ := h
  exact ⟨pre ++ u, v, w, by simp [hl]⟩

theorem runQueue_drains (cfg : SchedulerConfig) (agents : List Agent)
    (exec : Task → Bool) (now : Nat) (q : List Task) :
    ∀ st : SchedulerState, st.runningTasks = [] →
      0 < cfg.maxConcurrentTasks →
      (runQueue cfg agents exec now st q).2.1 = [] ∧
      (runQueue cfg agents exec now st q).2.2 = q ∧
      (runQueue cfg agents exec now st q).1.queues = st.queues ∧
      (runQueue cfg agents exec now st q).1.runningTasks = [] := by
  induction q with
  | nil => exact fun st h hmax => ⟨rfl, rfl, rfl, h⟩
  | cons t rest ih =>
    intro st h hmax
    have hcan : canExecuteMoreTasks cfg st = true := by
      simp [canExecuteMoreTasks, h, hmax]
    obtain ⟨h1, h2, h3, h4⟩ := ih (executeTask cfg agents exec st now t)
      (executeTask_runningTasks_nil cfg agents exec st now t h) hmax
    rcases hres : runQueue cfg agents exec now
        (executeTask cfg agents exec st now t) rest with ⟨st', rem, log⟩
    rw [hres] at h1 h2 h3 h4
    dsimp only at h1 h2 h3 h4
    simp only [runQueue, hcan, if_true, hres]
    exact ⟨h1, by simp [h2],
      h3.trans (executeTask_queues cfg agents exec st now t), h4⟩

theorem processLevel_log (cfg : SchedulerConfig) (agents : List Agent)
    (exec : Task → Bool) (now : Nat) (st : SchedulerState) (p : String)
    (h : st.runningTasks = []) (hmax : 0 < cfg.maxConcurrentTasks) :
    (processLevel cfg agents exec now st p).2 = levelQueue st p ∧
    (∀ k, k ≠ p →
      mapGet (processLevel cfg agents exec now st p).1.queues k
        = mapGet st.queues k) ∧
    (processLevel cfg agents exec now st p).1.runningTasks = [] := by
  cases hq : mapGet st.queues p with
  | none =>
    simp [processLevel, hq, levelQueue, h]
  | some qp =>
    obtain ⟨h1, h2, h3, h4⟩ :=
      runQueue_drains cfg agents exec now qp st h hmax
    rcases hres : runQueue cfg agents exec now st qp with ⟨st', rem, log⟩
    rw [hres] at h1 h2 h3 h4
    dsimp only at h1 h2 h3 h4
    simp only [processLevel, hq, hres, levelQueue]
    refine ⟨by simp [h2], fun k hk => ?_, h4⟩
    rw [h3]
    exact mapGet_mapSet_ne st.queues p k rem (fun hpk => hk hpk.symm)

theorem processQueues_log (cfg : SchedulerConfig) (agents : List Agent)
    (exec : Task → Bool) (now : Nat) (st : SchedulerState)
    (h : st.runningTasks = []) (hmax : 0 < cfg.maxConcurrentTasks) :
    (processQueues cfg agents exec now st).2 =
      levelQueue st "critical" ++ levelQueue st "high" ++
      levelQueue st "medium" ++ levelQueue st "low" := by
  obtain ⟨hc1, hc2, hc3⟩ :=
    processLevel_log cfg agents exec now st "critical" h hmax
  rcases hP1 : processLevel cfg agents exec now st "critical" with ⟨st1, l1⟩
  rw [hP1] at hc1 hc2 hc3
  dsimp only at hc1 hc2 hc3
  obtain ⟨hh1, hh2, hh3⟩ :=
    processLevel_log cfg agents exec now st1 "high" hc3 hmax
  rcases hP2 : processLevel cfg agents exec now st1 "high" with ⟨st2, l2⟩
  rw [hP2] at hh1 hh2 hh3
  dsimp only at hh1 hh2 hh3
  obtain ⟨hm1, hm2, hm3⟩ :=
    processLevel_log cfg agents exec now st2 "medium" hh3 hmax
  rcases hP3 : processLevel cfg agents exec now st2 "medium" with ⟨st3, l3⟩
  rw [hP3] at hm1 hm2 hm3
  dsimp only at hm1 hm2 hm3
  obtain ⟨hl1, hl2, hl3⟩ :=
    processLevel_log cfg agents exec now st3 "low" hm3 hmax
  rcases hP4 : processLevel cfg agents exec now st3 "low" with ⟨st4, l4⟩
  rw [hP4] at hl1 hl2 hl3
  dsimp only at hl1 hl2 hl3
  have e2 : levelQueue st1 "high" = levelQueue st "high" := by
    simp [levelQueue, hc2 "high" (by decide)]
  have e3 : levelQueue st2 "medium" = levelQueue st "medium" := by
    simp [levelQueue, hh2 "medium" (by decide), hc2 "medium" (by decide)]
  have e4 : levelQueue st3 "low" = levelQueue st "low" := by
    simp [levelQueue, hm2 "low" (by decide), hh2 "low" (by decide),
      hc2 "low" (by decide)]
  simp only [processQueues, priorityOrder, List.foldl, hP1, hP2, hP3, hP4]
  simp [hc1, hh1, hm1, hl1, e2, e3, e4, List.append_assoc]

/-- C7: if every execution slot is free (`runningCount < maxConcurrentTasks`
with an empty running set) then one `processQueues` tick hands the queued
tasks to `executeTask` exactly in the order critical ++ high ++ medium ++
low, each level in queue (i.e. submission) order; consequently a task of a
strictly higher priority level is always dispatched before one of a lower
level, and within one level the earlier-queued of two tasks is dispatched
first.  Availability of a qualifying worker is immaterial to the order:
`executeTask` is invoked on the popped task either way. -/
theorem c7_priority_then_fifo_dispatch_order (cfg : SchedulerConfig)
    (agents : List Agent) (exec : Task → Bool) (now : Nat)
    (st : SchedulerState) (hrun : st.runningTasks = [])
    (hmax : 0 < cfg.maxConcurrentTasks) :
    (processQueues cfg agents exec now st).2 =
      levelQueue st "critical" ++ levelQueue st "high" ++
      levelQueue st "medium" ++ levelQueue st "low" ∧
    (∀ a b, a ∈ levelQueue st "critical" →
      (b ∈ levelQueue st "high" ∨ b ∈ levelQueue st "medium" ∨
       b ∈ levelQueue st "low") →
      dispatchedBefore (processQueues cfg agents exec now st).2 a b) ∧
    (∀ a b, a ∈ levelQueue st "high" →
      (b ∈ levelQueue st "medium" ∨ b ∈ levelQueue st "low") →
      dispatchedBefore (processQueues cfg agents exec now st).2 a b) ∧
    (∀ a b, a ∈ levelQueue st "medium" → b ∈ levelQueue st "low" →
      dispatchedBefore (processQueues cfg agents exec now st).2 a b) ∧
    (∀ p, p ∈ priorityOrder → ∀ u v w (a b : Task),
      levelQueue st p = u ++ a :: v ++ b :: w →
      dispatchedBefore (processQueues cfg agents exec now st).2 a b) := by
  have hlog := processQueues_log cfg agents exec now st hrun hmax
  rw [hlog]
  refine ⟨rfl, ?_, ?_, ?_, ?_⟩
  · intro a b ha hb
    rcases hb with hb | hb | hb
    · exact dispatchedBefore_append_right (dispatchedBefore_append_right
        (dispatchedBefore_of_mem_append ha hb))
    · exact dispatchedBefore_append_right
        (dispatchedBefore_of_mem_append (List.mem_append_left _ ha) hb)
    · exact dispatchedBefore_of_mem_append
        (List.mem_append_left _ (List.mem_append_left _ ha)) hb
  · intro a b ha hb
    rcases hb with hb | hb
    · exact dispatchedBefore_append_right
        (dispatchedBefore_of_mem_append (List.mem_append_right _ ha) hb)
    · exact dispatchedBefore_of_mem_append
        (List.mem_append_left _ (List.mem_append_right _ ha)) hb
  · intro a b ha hb
    exact dispatchedBefore_of_mem_append (List.mem_append_right _ ha) hb
  · intro p hp u v w a b hsplit
    have hbase : dispatchedBefore (levelQueue st p) a b := ⟨u, v, w, hsplit⟩
    fin_cases hp
    · exact dispatchedBefore_append_right (dispatchedBefore_append_right
        (dispatchedBefore_append_right hbase))
    · exact dispatchedBefore_append_right (dispatchedBefore_append_right
        (dispatchedBefore_append_left _ hbase))
    · exact dispatchedBefore_append_right
        (dispatchedBefore_append_left _ hbase)
    · exact dispatchedBefore_append_left _ hbase

/-- C7 witness: the dispatch log of a tick over one critical and two medium
tasks, from an idle scheduler. -/
theorem c7_dispatch_order_witness :
    c7Start.runningTasks = [] ∧
    0 < defaultSchedulerConfig.maxConcurrentTasks ∧
    (processQueues defaultSchedulerConfig [readyAgent] (fun _ => true) 0
        c7Start).2 =
      levelQueue c7Start "critical" ++ levelQueue c7Start "high" ++
      levelQueue c7Start "medium" ++ levelQueue c7Start "low" :=
  ⟨rfl, by decide,
   (c7_priority_then_fifo_dispatch_order defaultSchedulerConfig [readyAgent]
     (fun _ => true) 0 c7Start rfl (by decide)).1⟩

/-! ## Claim C5 -/

theorem scheduleTask_other_key (cfg : SchedulerConfig) (st : SchedulerState)
    (now : Nat) (nextId : String) (task : Task) (k : String)
    (hk : k ≠ effectivePriority task) :
    mapGet (scheduleTask cfg st now nextId task).1.queues k
      = mapGet st.queues k := by
  unfold scheduleTask
  by_cases h : mapHas st.queues (effectivePriority task)
  · simp only [h, if_true]
    exact mapGet_mapSet_ne _ _ _ _ (fun he => hk he.symm)
  · simp only [h, if_false, Bool.false_eq_true]
    rw [mapGet_mapSet_ne _ _ _ _ (fun he => hk he.symm),
        mapGet_mapSet_ne _ _ _ _ (fun he => hk he.symm)]

theorem scheduleTask_priority_field (cfg : SchedulerConfig)
    (st : SchedulerState) (now : Nat) (nextId : String) (task : Task) :
    ((scheduleTask cfg st now nextId task).2).priority = task.priority := rfl

theorem scheduleTask_runningTasks (cfg : SchedulerConfig)
    (st : SchedulerState) (now : Nat) (nextId : String) (task : Task) :
    (scheduleTask cfg st now nextId task).1.runningTasks
      = st.runningTasks := rfl

theorem scheduleTask_pendingRetries (cfg : SchedulerConfig)
    (st : SchedulerState) (now : Nat) (nextId : String) (task : Task) :
    (scheduleTask cfg st now nextId task).1.pendingRetries
      = st.pendingRetries := rfl

theorem runQueue_sub (cfg : SchedulerConfig) (agents : List Agent)
    (exec : Task → Bool) (now : Nat) (q : List Task) :
    ∀ st : SchedulerState, st.runningTasks = [] →
      (runQueue cfg agents exec now st q).1.queues = st.queues ∧
      (runQueue cfg agents exec now st q).1.runningTasks = [] ∧
      (∀ t ∈ (runQueue cfg agents exec now st q).2.1, t ∈ q) ∧
      (∀ t ∈ (runQueue cfg agents exec now st q).1.pendingRetries,
        t ∈ st.pendingRetries ∨
        ∃ t₀ ∈ q, effectivePriority t = effectivePriority t₀) := by
  induction q with
  | nil =>
    exact fun st h => ⟨rfl, h, fun t ht => absurd ht (by simp [runQueue]),
      fun t ht => Or.inl ht⟩
  | cons t rest ih =>
    intro st h
    by_cases hcan : canExecuteMoreTasks cfg st = true
    · obtain ⟨h1, h2, h3, h4⟩ := ih (executeTask cfg agents exec st now t)
        (executeTask_runningTasks_nil cfg agents exec st now t h)
      rcases hres : runQueue cfg agents exec now
          (executeTask cfg agents exec st now t) rest with ⟨st', rem, log⟩
      rw [hres] at h1 h2 h3 h4
      dsimp only at h1 h2 h3 h4
      simp only [runQueue, hcan, if_true, hres]
      refine ⟨h1.trans (executeTask_queues cfg agents exec st now t), h2,
        fun u hu => List.mem_cons_of_mem t (h3 u hu), fun u hu => ?_⟩
      rcases h4 u hu with hu' | ⟨t₀, ht₀, he⟩
      · rcases executeTask_pendingRetries cfg agents exec st now t u hu' with
          hu'' | he
        · exact Or.inl hu''
        · exact Or.inr ⟨t, List.mem_cons_self t rest, he⟩
      · exact Or.inr ⟨t₀, List.mem_cons_of_mem t ht₀, he⟩
    · simp only [runQueue, hcan, if_false, Bool.false_eq_true]
      exact ⟨by trivial, h, fun u hu => hu, fun u hu => Or.inl hu⟩

theorem processLevel_sub (cfg : SchedulerConfig) (agents : List Agent)
    (exec : Task → Bool) (now : Nat) (st : SchedulerState) (p : String)
    (h : st.runningTasks = []) :
    (processLevel cfg agents exec now st p).1.runningTasks = [] ∧
    (∀ k, k ≠ p →
      mapGet (processLevel cfg agents exec now st p).1.queues k
        = mapGet st.queues k) ∧
    (∀ t ∈ levelQueue (processLevel cfg agents exec now st p).1 p,
      t ∈ levelQueue st p) ∧
    (∀ t ∈ (processLevel cfg agents exec now st p).1.pendingRetries,
      t ∈ st.pendingRetries ∨
      ∃ t₀ ∈ levelQueue st p, effectivePriority t = effectivePriority t₀) := by
  cases hq : mapGet st.queues p with
  | none =>
    simp only [processLevel, hq]
    exact ⟨h, fun k _ => by trivial, fun t ht => ht, fun t ht => Or.inl ht⟩
  | some qp =>
    obtain ⟨h1, h2, h3, h4⟩ := runQueue_sub cfg agents exec now qp st h
    rcases hres : runQueue cfg agents exec now st qp with ⟨st', rem, log⟩
    rw [hres] at h1 h2 h3 h4
    dsimp only at h1 h2 h3 h4
    simp only [processLevel, hq, hres]
    refine ⟨h2, fun k hk => ?_, fun t ht => ?_, fun t ht => ?_⟩
    · rw [mapGet_mapSet_ne st'.queues p k rem (fun he => hk he.symm), h1]
    · simp only [levelQueue, mapGet_mapSet_self, Option.getD_some] at ht
      simp only [levelQueue, hq, Option.getD_some]
      exact h3 t ht
    · rcases h4 t ht with ht' | ⟨t₀, ht₀, he⟩
      · exact Or.inl ht'
      · exact Or.inr ⟨t₀, by simpa [levelQueue, hq] using ht₀, he⟩

theorem processLevels_sub (cfg : SchedulerConfig) (agents : List Agent)
    (exec : Task → Bool) (now : Nat) :
    ∀ (ks : List String) (st : SchedulerState) (log₀ : List Task),
      st.runningTasks = [] →
      ((ks.foldl
        (fun acc priority =>
          let (st', log) := processLevel cfg agents exec now acc.1 priority
          (st', acc.2 ++ log))
        (st, log₀)).1.runningTasks = [] ∧
      (∀ k, k ∉ ks →
        mapGet (ks.foldl
          (fun acc priority =>
            let (st', log) := processLevel cfg agents exec now acc.1 priority
            (st', acc.2 ++ log))
          (st, log₀)).1.queues k = mapGet st.queues k) ∧
      (∀ ℓ, ∀ t ∈ levelQueue (ks.foldl
          (fun acc priority =>
            let (st', log) := processLevel cfg agents exec now acc.1 priority
            (st', acc.2 ++ log))
          (st, log₀)).1 ℓ, t ∈ levelQueue st ℓ) ∧
      (∀ t ∈ (ks.foldl
          (fun acc priority =>
            let (st', log) := processLevel cfg agents exec now acc.1 priority
            (st', acc.2 ++ log))
          (st, log₀)).1.pendingRetries,
        t ∈ st.pendingRetries ∨
        ∃ ℓ ∈ ks, ∃ t₀ ∈ levelQueue st ℓ,
          effectivePriority t = effectivePriority t₀)) := by
  intro ks
  induction ks with
  | nil =>
    exact fun st log₀ h =>
      ⟨h, fun k _ => rfl, fun ℓ t ht => ht, fun t ht => Or.inl ht⟩
  | cons k ks ih =>
    intro st log₀ h
    obtain ⟨p1, p2, p3, p4⟩ := processLevel_sub cfg agents exec now st k h
    rcases hP : processLevel cfg agents exec now st k with ⟨st1, log1⟩
    rw [hP] at p1 p2 p3 p4
    dsimp only at p1 p2 p3 p4
    obtain ⟨q1, q2, q3, q4⟩ := ih st1 (log₀ ++ log1) p1
    have hstep : ∀ ℓ, ∀ t ∈ levelQueue st1 ℓ, t ∈ levelQueue st ℓ := by
      intro ℓ t ht
      by_cases hℓ : ℓ = k
      · exact hℓ ▸ p3 t (hℓ ▸ ht)
      · rwa [levelQueue, p2 ℓ hℓ] at ht
    simp only [List.foldl_cons, hP]
    refine ⟨q1, fun k' hk' => ?_, fun ℓ t ht => ?_, fun t ht => ?_⟩
    · rw [q2 k' (fun hin => hk' (List.mem_cons_of_mem k hin)),
        p2 k' (fun he => hk' (he ▸ List.mem_cons_self k ks))]
    · exact hstep ℓ t (q3 ℓ t ht)
    · rcases q4 t ht with ht' | ⟨ℓ, hℓ, t₀, ht₀, he⟩
      · rcases p4 t ht' with ht'' | ⟨t₀, ht₀, he⟩
        · exact Or.inl ht''
        · exact Or.inr ⟨k, List.mem_cons_self k ks, t₀, ht₀, he⟩
      · exact Or.inr ⟨ℓ, List.mem_cons_of_mem k hℓ, t₀, hstep ℓ t₀ ht₀, he⟩

theorem checkRunningTasks_nil (cfg : SchedulerConfig) (st : SchedulerState)
    (now : Nat) (h : st.runningTasks = []) :
    checkRunningTasks cfg st now = st := by
  rw [checkRunningTasks, h]
  rfl

theorem scheduleFold_sub (cfg : SchedulerConfig) (now : Nat) (p : String) :
    ∀ (pend : List Task) (acc : SchedulerState),
      (∀ t ∈ pend, effectivePriority t ≠ p) →
      (mapGet (pend.foldl
          (fun a t =>
            (scheduleTask cfg a now t.id { t with status := "retrying" }).1)
          acc).queues p = mapGet acc.queues p ∧
      (pend.foldl
          (fun a t =>
            (scheduleTask cfg a now t.id { t with status := "retrying" }).1)
          acc).runningTasks = acc.runningTasks ∧
      (pend.foldl
          (fun a t =>
            (scheduleTask cfg a now t.id { t with status := "retrying" }).1)
          acc).pendingRetries = acc.pendingRetries ∧
      (∀ ℓ, ∀ t ∈ levelQueue (pend.foldl
          (fun a t =>
            (scheduleTask cfg a now t.id { t with status := "retrying" }).1)
          acc) ℓ,
        t ∈ levelQueue acc ℓ ∨
        ∃ t₀ ∈ pend, effectivePriority t = effectivePriority t₀)) := by
  intro pend
  induction pend with
  | nil =>
    exact fun acc _ => ⟨rfl, rfl, rfl, fun ℓ t ht => Or.inl ht⟩
  | cons r rest ih =>
    intro acc hpend
    have hr : effectivePriority r ≠ p := hpend r (List.mem_cons_self r rest)
    have hrest : ∀ t ∈ rest, effectivePriority t ≠ p :=
      fun t ht => hpend t (List.mem_cons_of_mem r ht)
    have hpri : effectivePriority { r with status := "retrying" }
        = effectivePriority r := rfl
    obtain ⟨q1, q2, q3, q4⟩ := ih
      ((scheduleTask cfg acc now r.id { r with status := "retrying" }).1) hrest
    have hstep : ∀ ℓ,
        ∀ t ∈ levelQueue
          (scheduleTask cfg acc now r.id { r with status := "retrying" }).1 ℓ,
        t ∈ levelQueue acc ℓ ∨ effectivePriority t = effectivePriority r := by
      intro ℓ t ht
      by_cases hℓ : ℓ = effectivePriority r
      · subst hℓ
        have happ := scheduleTask_appends cfg acc now r.id
          { r with status := "retrying" }
        rw [hpri] at happ
        rw [levelQueue, happ] at ht
        simp only [Option.getD_some, List.mem_append, List.mem_singleton] at ht
        rcases ht with ht | ht
        · exact Or.inl (by simpa [levelQueue] using ht)
        · right
          rw [ht]
          rfl
      · left
        rwa [levelQueue,
          scheduleTask_other_key cfg acc now r.id _ ℓ (hpri ▸ hℓ)] at ht
    simp only [List.foldl_cons]
    refine ⟨?_, ?_, ?_, fun ℓ t ht => ?_⟩
    · rw [q1, scheduleTask_other_key cfg acc now r.id _ p
        (hpri ▸ fun he => hr he.symm)]
    · rw [q2, scheduleTask_runningTasks]
    · rw [q3, scheduleTask_pendingRetries]
    · rcases q4 ℓ t ht with ht' | ⟨t₀, ht₀, he⟩
      · rcases hstep ℓ t ht' with h' | h'
        · exact Or.inl h'
        · exact Or.inr ⟨r, List.mem_cons_self r rest, h'⟩
      · exact Or.inr ⟨t₀, List.mem_cons_of_mem r ht₀, he⟩

theorem tick_preserves (cfg : SchedulerConfig) (agents : List Agent)
    (exec : Task → Bool) (now : Nat) (p : String) (hp : p ∉ priorityOrder)
    (st : SchedulerState) (hrun : st.runningTasks = [])
    (hpend : ∀ t ∈ st.pendingRetries, effectivePriority t ≠ p)
    (hP : ∀ ℓ ∈ priorityOrder, ∀ t ∈ levelQueue st ℓ,
      effectivePriority t ≠ p) :
    (tick cfg agents exec now st).runningTasks = [] ∧
    (∀ t ∈ (tick cfg agents exec now st).pendingRetries,
      effectivePriority t ≠ p) ∧
    (∀ ℓ ∈ priorityOrder, ∀ t ∈ levelQueue (tick cfg agents exec now st) ℓ,
      effectivePriority t ≠ p) ∧
    mapGet (tick cfg agents exec now st).queues p = mapGet st.queues p := by
  obtain ⟨q1, q2, q3, q4⟩ :=
    processLevels_sub cfg agents exec now priorityOrder st [] hrun
  set st1 := (priorityOrder.foldl
    (fun acc priority =>
      let (st', log) := processLevel cfg agents exec now acc.1 priority
      (st', acc.2 ++ log))
    (st, ([] : List Task))).1 with hst1
  have hPend1 : ∀ t ∈ st1.pendingRetries, effectivePriority t ≠ p := by
    intro t ht
    rcases q4 t ht with ht' | ⟨ℓ, hℓ, t₀, ht₀, he⟩
    · exact hpend t ht'
    · rw [he]
      exact hP ℓ hℓ t₀ ht₀
  have hP1 : ∀ ℓ ∈ priorityOrder, ∀ t ∈ levelQueue st1 ℓ,
      effectivePriority t ≠ p :=
    fun ℓ hℓ t ht => hP ℓ hℓ t (q3 ℓ t ht)
  have htick : tick cfg agents exec now st
      = flushRetries cfg st1 now := by
    rw [tick]
    have : (processQueues cfg agents exec now st).1 = st1 := by
      rw [processQueues, hst1]
    rw [this, checkRunningTasks_nil cfg st1 now q1]
  obtain ⟨f1, f2, f3, f4⟩ := scheduleFold_sub cfg now p st1.pendingRetries
    { st1 with pendingRetries := [] } hPend1
  rw [htick]
  have hflush : flushRetries cfg st1 now = st1.pendingRetries.foldl
      (fun a t =>
        (scheduleTask cfg a now t.id { t with status := "retrying" }).1)
      { st1 with pendingRetries := [] } := rfl
  rw [hflush]
  refine ⟨by rw [f2]; exact q1, ?_, ?_, ?_⟩
  · intro t ht
    rw [f3] at ht
    exact absurd ht (by simp)
  · intro ℓ hℓ t ht
    rcases f4 ℓ t ht with ht' | ⟨t₀, ht₀, he⟩
    · exact hP1 ℓ hℓ t (by simpa [levelQueue] using ht')
    · rw [he]
      exact hPend1 t₀ ht₀
  · rw [f1]
    exact q2 p hp

/-- C5: a task enqueued under a priority string outside the four recognized
levels sits in a queue `processQueues` never polls: over any number of
scheduler ticks the orphaned queue — here holding the records `l` — is
never touched, its tasks keep status `queued`, are never executed, and no
error is ever recorded for them, provided every recognized-level task and
pending retry carries a priority other than `p` (which `scheduleTask`
guarantees, since it keys queues by the task's own priority). -/
theorem c5_unrecognized_priority_starves (cfg : SchedulerConfig)
    (agents : List Agent) (exec : Task → Bool) (p : String)
    (hp : p ∉ priorityOrder) :
    ∀ (n now : Nat) (st : SchedulerState) (l : List Task),
      st.runningTasks = [] →
      (∀ t ∈ st.pendingRetries, effectivePriority t ≠ p) →
      (∀ ℓ ∈ priorityOrder, ∀ t ∈ levelQueue st ℓ, effectivePriority t ≠ p) →
      mapGet st.queues p = some l →
      (∀ t ∈ l, t.status = "queued") →
      mapGet (tickN cfg agents exec now st n).queues p = some l ∧
      ∀ t ∈ levelQueue (tickN cfg agents exec now st n) p,
        t.status = "queued" := by
  intro n
  induction n with
  | zero =>
    intro now st l hrun hpend hP hq hstat
    refine ⟨hq, fun t ht => hstat t ?_⟩
    simpa [tickN, levelQueue, hq] using ht
  | succ n ih =>
    intro now st l hrun hpend hP hq hstat
    obtain ⟨t1, t2, t3, t4⟩ :=
      tick_preserves cfg agents exec now p hp st hrun hpend hP
    exact ih (now + 1000) (tick cfg agents exec now st) l t1 t2 t3
      (t4.trans hq) hstat

/-- C5 witness: the orphaned `urgent` queue is intact after four ticks. -/
theorem c5_starvation_witness :
    ("urgent" ∉ priorityOrder) ∧
    mapGet (tickN defaultSchedulerConfig [readyAgent] (fun _ => true) 0
        c5Start 4).queues "urgent" = some [urgentScheduled] :=
  ⟨by decide,
   (c5_unrecognized_priority_starves defaultSchedulerConfig [readyAgent]
     (fun _ => true) "urgent" (by decide) 4 0 c5Start [urgentScheduled]
     rfl (by simp [c5Start, emptySchedulerState])
     (by decide) (by decide) (by decide)).1⟩

/-! ## Claim C9 -/

theorem assessSystemHealth_score_eq (m : PerformanceMetrics) :
    (assessSystemHealth m).score =
      max (100 -
        (if m.totalTasks ≠ 0 ∧
            (m.failedTasks : Rat) / (m.totalTasks : Rat) > 1 / 10
         then (30 : Int) else 0) -
        (if m.averageExecutionTime > 20000 then (20 : Int) else 0) -
        (if m.totalTasks ≠ 0 ∧
            (m.successfulTasks : Rat) / (m.totalTasks : Rat) < 9 / 10
         then (25 : Int) else 0)) 0 := by
  unfold assessSystemHealth
  simp only [Bool.and_eq_true, decide_eq_true_eq, gt_iff_lt]
  split_ifs <;> norm_num

set_option maxRecDepth 8000 in
/-- C9 counterexample: the health score is computed from the cumulative
counters only, never from the last-20 window.  Thirty tasks are finalized
through the tracker; the three failures all fall inside the last-20 window,
whose observed success rate is 17/20 < 90%, yet the cumulative rate is
exactly 27/30 = 90% and the score stays 100 instead of dropping by at
least 25. -/
theorem c9_last20_window_does_not_move_score :
    recentSuccessRate c9State.completedTasks < 9 / 10 ∧
    c9State.completedTasks.length = 30 ∧
    (assessSystemHealth c9State.performanceMetrics).score = 100 := by
  refine ⟨?_, by decide, ?_⟩
  · have hfil : ((c9State.completedTasks.drop
        (c9State.completedTasks.length - 20)).filter
          (fun t => t.status = "completed")).length = 17 := by decide
    have hlen : (c9State.completedTasks.drop
        (c9State.completedTasks.length - 20)).length = 20 := by decide
    simp only [recentSuccessRate, hfil, hlen]
    norm_num
  · have hT : c9State.performanceMetrics.totalTasks = 30 := by decide
    have hS : c9State.performanceMetrics.successfulTasks = 27 := by decide
    have hF : c9State.performanceMetrics.failedTasks = 3 := by decide
    have hAvg : c9State.performanceMetrics.averageExecutionTime
        = ((0 : Nat) : Rat) / ((30 : Nat) : Rat) := rfl
    rw [assessSystemHealth_score_eq, hT, hS, hF, hAvg]
    norm_num

/-- C9 amended: the health score is `100` minus penalties of 30 when the
cumulative error rate exceeds 10%, 20 when the average execution duration
exceeds 20 s, and 25 when the cumulative success rate (successfulTasks over
all recorded tasks, not the last-20 window) is below 90%, clamped at 0 (a
zero task total makes both rates `NaN` in the source, which fails every
comparison); the score is 100 on the freshly constructed metrics, and it is
at most 75 whenever tasks have run and the cumulative success rate is below
90%. -/
theorem c9_health_score_penalties (m : PerformanceMetrics) :
    (assessSystemHealth m).score =
      max (100 -
        (if m.totalTasks ≠ 0 ∧
            (m.failedTasks : Rat) / (m.totalTasks : Rat) > 1 / 10
         then (30 : Int) else 0) -
        (if m.averageExecutionTime > 20000 then (20 : Int) else 0) -
        (if m.totalTasks ≠ 0 ∧
            (m.successfulTasks : Rat) / (m.totalTasks : Rat) < 9 / 10
         then (25 : Int) else 0)) 0 ∧
    (assessSystemHealth initialPerformanceMetrics).score = 100 ∧
    (m.totalTasks ≠ 0 →
      (m.successfulTasks : Rat) / (m.totalTasks : Rat) < 9 / 10 →
      (assessSystemHealth m).score ≤ 75) := by
  refine ⟨assessSystemHealth_score_eq m, by decide, fun h0 hs => ?_⟩
  rw [assessSystemHealth_score_eq]
  refine max_le ?_ (by norm_num)
  rw [if_pos (show m.totalTasks ≠ 0 ∧
      (m.successfulTasks : Rat) / (m.totalTasks : Rat) < 9 / 10
    from ⟨h0, hs⟩)]
  split_ifs <;> norm_num

/-- C9 witness: the cumulative-rate penalty fires on metrics with success
rate 80%. -/
theorem c9_low_success_rate_witness :
    c9LowMetrics.totalTasks ≠ 0 ∧
    (c9LowMetrics.successfulTasks : Rat) / (c9LowMetrics.totalTasks : Rat)
        < 9 / 10 ∧
    (assessSystemHealth c9LowMetrics).score ≤ 75 :=
  ⟨by decide, by norm_num [c9LowMetrics],
   (c9_health_score_penalties c9LowMetrics).2.2 (by decide)
     (by norm_num [c9LowMetrics])⟩

/-! ## Claim C10 -/

theorem mapSet_mapSet_same (m : List (String × α)) (k : String) (a b : α) :
    mapSet (mapSet m k a) k b = mapSet m k b := by
  induction m with
  | nil => simp [mapSet]
  | cons hd tl ih =>
    by_cases h : hd.1 = k
    · simp [mapSet, h]
    · simp [mapSet, h, ih]

theorem mapDelete_mapSet_same (m : List (String × α)) (k : String) (a : α) :
    mapDelete (mapSet m k a) k = mapDelete m k := by
  induction m with
  | nil => simp [mapSet, mapDelete]
  | cons hd tl ih =>
    by_cases h : hd.1 = k
    · simp [mapSet, mapDelete, h]
    · simp [mapSet, mapDelete, h, ih]

theorem mem_mapSet (m : List (String × α)) (k : String) (v : α) (kv : String × α)
    (h : kv ∈ mapSet m k v) : kv ∈ m ∨ kv = (k, v) := by
  induction m with
  | nil => simpa [mapSet] using h
  | cons hd tl ih =>
    by_cases hhd : hd.1 = k
    · simp only [mapSet, if_pos hhd, List.mem_cons] at h
      rcases h with h | h
      · exact Or.inr h
      · exact Or.inl (List.mem_cons_of_mem hd h)
    · simp only [mapSet, if_neg hhd, List.mem_cons] at h
      rcases h with h | h
      · exact Or.inl (h ▸ List.mem_cons_self hd tl)
      · rcases ih h with h' | h'
        · exact Or.inl (List.mem_cons_of_mem hd h')
        · exact Or.inr h'

theorem mem_mapDelete (m : List (String × α)) (k : String) (kv : String × α)
    (h : kv ∈ mapDelete m k) : kv ∈ m := by
  induction m with
  | nil => simp [mapDelete] at h
  | cons hd tl ih =>
    by_cases hhd : hd.1 = k
    · simp only [mapDelete, if_pos hhd] at h
      exact List.mem_cons_of_mem hd (ih h)
    · simp only [mapDelete, if_neg hhd, List.mem_cons] at h
      rcases h with h | h
      · exact h ▸ List.mem_cons_self hd tl
      · exact List.mem_cons_of_mem hd (ih h)

theorem mapGet_mem (m : List (String × α)) (k : String) (v : α)
    (h : mapGet m k = some v) : (k, v) ∈ m := by
  induction m with
  | nil => simp [mapGet] at h
  | cons hd tl ih =>
    by_cases hhd : hd.1 = k
    · simp only [mapGet, if_pos hhd, Option.some_inj] at h
      have : hd = (k, v) := by
        cases hd
        simp_all
      exact this ▸ List.mem_cons_self hd tl
    · simp only [mapGet, if_neg hhd] at h
      exact List.mem_cons_of_mem hd (ih h)

theorem mapGet_mapDelete_ne (m : List (String × α)) (k k' : String)
    (h : k' ≠ k) : mapGet (mapDelete m k) k' = mapGet m k' := by
  induction m with
  | nil => simp [mapDelete]
  | cons hd tl ih =>
    by_cases hhd : hd.1 = k
    · have hne : ¬ hd.1 = k' := by
        rw [hhd]
        exact fun hc => h hc.symm
      simp [mapDelete, mapGet, hhd, hne, ih, Ne.symm h]
    · by_cases hhd' : hd.1 = k'
      · simp [mapDelete, mapGet, hhd, hhd', h]
      · simp [mapDelete, mapGet, hhd, hhd', ih]

/-- `addTaskPhase` either misses (unknown id, state unchanged) or rewrites
exactly the addressed record, appending one phase of the given type. -/
theorem addTaskPhase_shape (st : TrackerState) (now : Nat) (taskId : String)
    (phaseType description status : String) (dataAgent : Option String) :
    (mapGet st.activeTasks taskId = none ∧
      addTaskPhase st now taskId phaseType description status dataAgent = st) ∨
    (∃ old new, mapGet st.activeTasks taskId = some old ∧
      addTaskPhase st now taskId phaseType description status dataAgent =
        { st with activeTasks := mapSet st.activeTasks taskId new } ∧
      new.phases = old.phases ++
        [{ type := phaseType, description := description, status := status,
           timestamp := now, duration := none,
           agent := dataAgent.getD "system" }] ∧
      new.errors = old.errors) := by
  cases hq : mapGet st.activeTasks taskId with
  | none =>
    left
    exact ⟨rfl, by simp only [addTaskPhase, hq]⟩
  | some task =>
    right
    unfold addTaskPhase
    rw [hq]
    cases dataAgent with
    | none => exact ⟨task, _, rfl, rfl, rfl, rfl⟩
    | some a =>
      dsimp only
      split_ifs <;> exact ⟨task, _, rfl, rfl, rfl, rfl⟩

theorem mapGet_mapDelete_self (m : List (String × α)) (k : String) :
    mapGet (mapDelete m k) k = none := by
  induction m with
  | nil => rfl
  | cons hd tl ih =>
    by_cases hhd : hd.1 = k
    · simp [mapDelete, hhd, ih]
    · simp [mapDelete, mapGet, hhd, ih]

theorem mapGet_mapSet_cases (m : List (String × α)) (k id : String) (v : α) :
    mapGet (mapSet m k v) id = mapGet m id ∨
    (id = k ∧ mapGet (mapSet m k v) id = some v) := by
  by_cases h : id = k
  · subst h
    exact Or.inr ⟨rfl, mapGet_mapSet_self m id v⟩
  · exact Or.inl (mapGet_mapSet_ne m k id v (fun he => h he.symm))

theorem phasesExtends_refl (t : TrackedTask) : phasesExtends t t :=
  ⟨[], (List.append_nil _).symm⟩

theorem updatePerformanceMetrics_activeTasks (st : TrackerState)
    (t : TrackedTask) :
    (updatePerformanceMetrics st t).activeTasks = st.activeTasks := rfl

theorem updatePerformanceMetrics_completedTasks (st : TrackerState)
    (t : TrackedTask) :
    (updatePerformanceMetrics st t).completedTasks = st.completedTasks := rfl

/-- `createTaskTracker` writes exactly one fresh record whose phase list is
the singleton initialization phase and whose error list is empty. -/
theorem createTaskTracker_shape (st : TrackerState) (now : Nat)
    (taskId description priority : String) :
    ∃ new, createTaskTracker st now taskId description priority =
        { st with activeTasks := mapSet st.activeTasks taskId new } ∧
      new.phases = [{ type := "initialization"
                      description := "任务初始化"
                      status := "info"
                      timestamp := now
                      duration := none
                      agent := "system" }] ∧
      new.errors = [] := by
  unfold createTaskTracker addTaskPhase
  dsimp only
  rw [mapGet_mapSet_self]
  dsimp only
  refine ⟨{ id := taskId
            description := description
            priority := priority
            status := "created"
            createdAt := now
            startTime := none
            endTime := none
            duration := none
            phases := [{ type := "initialization"
                         description := "任务初始化"
                         status := "info"
                         timestamp := now
                         duration := none
                         agent := "system" }]
            agentsInvolved := []
            sensorDataUsed := []
            results := none
            errors := []
            metrics := { dataProcessingTime := 0
                         apiCalls := 0
                         cacheHits := 0
                         accuracy := none } }, ?_, rfl, rfl⟩
  rw [mapSet_mapSet_same]
  try rfl

theorem addTaskPhase_mono (st : TrackerState) (now : Nat)
    (taskId phaseType description status : String) (dataAgent : Option String) :
    ActMono st (addTaskPhase st now taskId phaseType description status dataAgent) ∧
    CompMono st (addTaskPhase st now taskId phaseType description status dataAgent) := by
  rcases addTaskPhase_shape st now taskId phaseType description status dataAgent
    with ⟨hq, heq⟩ | ⟨old, new, hq, heq, hph, herr⟩
  · rw [heq]
    exact ⟨fun id t' h => ⟨t', h, phasesExtends_refl t'⟩, fun t' h => Or.inl h⟩
  · rw [heq]
    constructor
    · intro id t' h
      dsimp only at h
      rcases mapGet_mapSet_cases st.activeTasks taskId id new with hc | ⟨hid, hc⟩
      · rw [hc] at h
        exact ⟨t', h, phasesExtends_refl t'⟩
      · subst hid
        rw [hc] at h
        obtain rfl : new = t' := by injection h
        exact ⟨old, hq, ⟨_, hph⟩⟩
    · intro t' h
      exact Or.inl h

theorem createTaskTracker_mono (st : TrackerState) (now : Nat)
    (taskId description priority : String) :
    (∀ id t', id ≠ taskId →
      mapGet (createTaskTracker st now taskId description priority).activeTasks
          id = some t' →
      mapGet st.activeTasks id = some t') ∧
    (∀ t',
      mapGet (createTaskTracker st now taskId description priority).activeTasks
          taskId = some t' →
      t'.phases = [{ type := "initialization"
                     description := "任务初始化"
                     status := "info"
                     timestamp := now
                     duration := none
                     agent := "system" }]) ∧
    CompMono st (createTaskTracker st now taskId description priority) := by
  obtain ⟨new, heq, hph, herr⟩ :=
    createTaskTracker_shape st now taskId description priority
  rw [heq]
  refine ⟨fun id t' hne h => ?_, fun t' h => ?_, fun t' h => Or.inl h⟩
  · dsimp only at h
    rwa [mapGet_mapSet_ne st.activeTasks taskId id new
      (fun he => hne he.symm)] at h
  · dsimp only at h
    rw [mapGet_mapSet_self] at h
    obtain rfl : new = t' := by injection h
    exact hph

theorem recordSensorDataUsage_mono (st : TrackerState)
    (taskId sensorType : String) (dataSize processingTime : Nat) :
    ActMono st (recordSensorDataUsage st taskId sensorType dataSize processingTime) ∧
    CompMono st (recordSensorDataUsage st taskId sensorType dataSize processingTime) := by
  unfold recordSensorDataUsage
  cases hq : mapGet st.activeTasks taskId with
  | none =>
    exact ⟨fun id t' h => ⟨t', h, phasesExtends_refl t'⟩, fun t' h => Or.inl h⟩
  | some task =>
    dsimp only
    constructor
    · intro id t' h
      dsimp only at h
      rcases mapGet_mapSet_cases st.activeTasks taskId id _ with hc | ⟨hid, hc⟩
      · rw [hc] at h
        exact ⟨t', h, phasesExtends_refl t'⟩
      · subst hid
        rw [hc] at h
        refine ⟨task, hq, ⟨[], ?_⟩⟩
        obtain rfl := Option.some_injective _ h
        simp
    · intro t' h
      exact Or.inl h

theorem recordError_mono (st : TrackerState) (now : Nat)
    (taskId message agent : String) :
    ActMono st (recordError st now taskId message agent) ∧
    CompMono st (recordError st now taskId message agent) := by
  unfold recordError
  cases hq : mapGet st.activeTasks taskId with
  | none =>
    exact ⟨fun id t' h => ⟨t', h, phasesExtends_refl t'⟩, fun t' h => Or.inl h⟩
  | some task =>
    dsimp only
    rcases addTaskPhase_shape
        { st with
          activeTasks :=
            mapSet st.activeTasks taskId
              { task with
                errors := task.errors ++
                  [{ timestamp := now, message := message, agent := agent,
                     phase := match task.phases.getLast? with
                              | some p => p.type
                              | none => "unknown" }] } }
        now taskId "error" ("错误: " ++ message) "error" (some agent)
      with ⟨hq2, heq2⟩ | ⟨old2, new2, hq2, heq2, hph2, herr2⟩
    · simp [mapGet_mapSet_self] at hq2
    · rw [heq2]
      dsimp only at hq2 ⊢
      rw [mapGet_mapSet_self] at hq2
      obtain rfl := Option.some_injective _ hq2
      rw [mapSet_mapSet_same]
      constructor
      · intro id t' h
        dsimp only at h
        rcases mapGet_mapSet_cases st.activeTasks taskId id new2 with hc | ⟨hid, hc⟩
        · rw [hc] at h
          exact ⟨t', h, phasesExtends_refl t'⟩
        · subst hid
          rw [hc] at h
          obtain rfl : new2 = t' := by injection h
          exact ⟨task, hq, ⟨_, hph2⟩⟩
      · intro t' h
        exact Or.inl h

theorem completeTask_mono (st : TrackerState) (now : Nat) (taskId : String) :
    ActMono st (completeTask st now taskId) ∧
    CompMono st (completeTask st now taskId) := by
  unfold completeTask
  cases hq : mapGet st.activeTasks taskId with
  | none =>
    exact ⟨fun id t' h => ⟨t', h, phasesExtends_refl t'⟩, fun t' h => Or.inl h⟩
  | some task =>
    dsimp only
    constructor
    · intro id t' h
      rw [updatePerformanceMetrics_activeTasks] at h
      dsimp only at h
      by_cases hid : id = taskId
      · subst hid
        rw [mapGet_mapDelete_self] at h
        cases h
      · rw [mapGet_mapDelete_ne st.activeTasks taskId id hid] at h
        exact ⟨t', h, phasesExtends_refl t'⟩
    · intro t' h
      rw [updatePerformanceMetrics_completedTasks] at h
      dsimp only at h
      rcases List.mem_append.mp h with h | h
      · exact Or.inl h
      · obtain rfl := List.mem_singleton.mp h
        exact Or.inr ⟨taskId, _, hq, phasesExtends_refl _⟩

theorem cleanupOldTasks_mono (st : TrackerState) (now : Nat) :
    ActMono st (cleanupOldTasks st now) ∧
    CompMono st (cleanupOldTasks st now) := by
  unfold cleanupOldTasks
  constructor
  · intro id t' h
    exact ⟨t', h, phasesExtends_refl t'⟩
  · intro t' h
    dsimp only at h
    exact Or.inl (List.mem_filter.mp h).1

theorem updateTaskStatus_mono (st : TrackerState) (now : Nat)
    (taskId status : String) (detailsAgent : Option String) :
    ActMono st (updateTaskStatus st now taskId status detailsAgent) ∧
    CompMono st (updateTaskStatus st now taskId status detailsAgent) := by
  unfold updateTaskStatus
  cases hq : mapGet st.activeTasks taskId with
  | none =>
    exact ⟨fun id t' h => ⟨t', h, phasesExtends_refl t'⟩, fun t' h => Or.inl h⟩
  | some task =>
    dsimp only
    rcases addTaskPhase_shape
        { st with
          activeTasks :=
            mapSet st.activeTasks taskId { task with status := status } }
        now taskId "status_change"
        ("状态变更: " ++ task.status ++ " → " ++ status) status detailsAgent
      with ⟨hq2, heq2⟩ | ⟨old2, new2, hq2, heq2, hph2, herr2⟩
    · simp [mapGet_mapSet_self] at hq2
    · rw [heq2]
      dsimp only at hq2 ⊢
      rw [mapGet_mapSet_self] at hq2
      obtain rfl := Option.some_injective _ hq2
      rw [mapSet_mapSet_same]
      have hext2 : phasesExtends task new2 := ⟨_, hph2⟩
      split_ifs with hrun hdone
      · rw [mapGet_mapSet_self]
        dsimp only
        constructor
        · intro id t' h
          dsimp only at h
          rw [mapSet_mapSet_same] at h
          rcases mapGet_mapSet_cases st.activeTasks taskId id _ with hc | ⟨hid, hc⟩
          · rw [hc] at h
            exact ⟨t', h, phasesExtends_refl t'⟩
          · subst hid
            rw [hc] at h
            refine ⟨task, hq, ?_⟩
            obtain rfl := Option.some_injective _ h
            split_ifs <;> exact ⟨_, hph2⟩
        · intro t' h
          exact Or.inl h
      · rw [mapGet_mapSet_self]
        dsimp only
        unfold completeTask
        rw [mapGet_mapSet_self]
        dsimp only
        constructor
        · intro id t' h
          rw [updatePerformanceMetrics_activeTasks] at h
          dsimp only at h
          rw [mapSet_mapSet_same] at h
          rw [mapDelete_mapSet_same] at h
          by_cases hid : id = taskId
          · subst hid
            rw [mapGet_mapDelete_self] at h
            cases h
          · rw [mapGet_mapDelete_ne st.activeTasks taskId id hid] at h
            exact ⟨t', h, phasesExtends_refl t'⟩
        · intro t' h
          rw [updatePerformanceMetrics_completedTasks] at h
          dsimp only at h
          rcases List.mem_append.mp h with h | h
          · exact Or.inl h
          · obtain rfl := List.mem_singleton.mp h
            exact Or.inr ⟨taskId, task, hq, ⟨_, hph2⟩⟩
      · constructor
        · intro id t' h
          dsimp only at h
          rcases mapGet_mapSet_cases st.activeTasks taskId id new2 with hc | ⟨hid, hc⟩
          · rw [hc] at h
            exact ⟨t', h, phasesExtends_refl t'⟩
          · subst hid
            rw [hc] at h
            obtain rfl : new2 = t' := by injection h
            exact ⟨task, hq, hext2⟩
        · intro t' h
          exact Or.inl h

theorem phases_head_extend {t t' : TrackedTask} (hext : phasesExtends t t')
    (hne : t.phases ≠ [])
    (hhead : t.phases.head?.map (fun p => p.type) = some "initialization") :
    t'.phases ≠ [] ∧
    t'.phases.head?.map (fun p => p.type) = some "initialization" := by
  obtain ⟨ext, hx⟩ := hext
  cases htp : t.phases with
  | nil => exact absurd htp hne
  | cons a l =>
    rw [htp] at hhead hx
    rw [hx]
    exact ⟨by simp, by simpa using hhead⟩

theorem applyOp_compMono (st : TrackerState) (op : TrackerOp) :
    CompMono st (applyOp st op) := by
  cases op with
  | create now taskId d p => exact (createTaskTracker_mono st now taskId d p).2.2
  | addPhase now taskId ty d s ag =>
    exact (addTaskPhase_mono st now taskId ty d s ag).2
  | updateStatus now taskId s da =>
    exact (updateTaskStatus_mono st now taskId s da).2
  | recordSensor taskId sensor ds pt =>
    exact (recordSensorDataUsage_mono st taskId sensor ds pt).2
  | recordErr now taskId msg ag => exact (recordError_mono st now taskId msg ag).2
  | complete now taskId => exact (completeTask_mono st now taskId).2
  | cleanup now => exact (cleanupOldTasks_mono st now).2

theorem applyOp_actMono_or_create (st : TrackerState) (op : TrackerOp) :
    ActMono st (applyOp st op) ∨
    ∃ now taskId d p, op = TrackerOp.create now taskId d p := by
  cases op with
  | create now taskId d p => exact Or.inr ⟨now, taskId, d, p, rfl⟩
  | addPhase now taskId ty d s ag =>
    exact Or.inl (addTaskPhase_mono st now taskId ty d s ag).1
  | updateStatus now taskId s da =>
    exact Or.inl (updateTaskStatus_mono st now taskId s da).1
  | recordSensor taskId sensor ds pt =>
    exact Or.inl (recordSensorDataUsage_mono st taskId sensor ds pt).1
  | recordErr now taskId msg ag =>
    exact Or.inl (recordError_mono st now taskId msg ag).1
  | complete now taskId => exact Or.inl (completeTask_mono st now taskId).1
  | cleanup now => exact Or.inl (cleanupOldTasks_mono st now).1

theorem applyOp_actMono_of_ne_create (st : TrackerState) (op : TrackerOp)
    (taskId : String)
    (hne : ∀ now d p, op ≠ TrackerOp.create now taskId d p) :
    ∀ t t', mapGet st.activeTasks taskId = some t →
      mapGet (applyOp st op).activeTasks taskId = some t' →
      phasesExtends t t' := by
  intro t t' hb ha
  rcases applyOp_actMono_or_create st op with hact | ⟨now, id, d, p, rfl⟩
  · obtain ⟨t₀, hb₀, hext⟩ := hact taskId t' ha
    rw [hb] at hb₀
    obtain rfl := Option.some_injective _ hb₀
    exact hext
  · have hid : id ≠ taskId := fun he => hne now d p (by rw [he])
    have hkeep := (createTaskTracker_mono st now id d p).1 taskId t'
      (fun he => hid he.symm) ha
    rw [hb] at hkeep
    obtain rfl := Option.some_injective _ hkeep
    exact phasesExtends_refl t

theorem applyOp_phasesInv (st : TrackerState) (op : TrackerOp)
    (h : PhasesInv st) : PhasesInv (applyOp st op) := by
  have hcomp :
      ∀ t' ∈ (applyOp st op).completedTasks, t'.phases ≠ [] ∧
        t'.phases.head?.map (fun p => p.type) = some "initialization" := by
    intro t' ht'
    rcases applyOp_compMono st op t' ht' with h1 | ⟨id, t, hget, hext⟩
    · exact h.2 t' h1
    · obtain ⟨hne, hhead⟩ := h.1 id t hget
      exact phases_head_extend hext hne hhead
  rcases applyOp_actMono_or_create st op with hact | ⟨now, id, d, p, rfl⟩
  · refine ⟨fun id' t' ha => ?_, hcomp⟩
    obtain ⟨t, hb, hext⟩ := hact id' t' ha
    obtain ⟨hne, hhead⟩ := h.1 id' t hb
    exact phases_head_extend hext hne hhead
  · refine ⟨fun id' t' ha => ?_, hcomp⟩
    by_cases hid : id' = id
    · subst hid
      have hfresh := (createTaskTracker_mono st now id' d p).2.1 t' ha
      rw [hfresh]
      exact ⟨by simp, by simp⟩
    · exact h.1 id' t'
        ((createTaskTracker_mono st now id d p).1 id' t' hid ha)

theorem phasesInv_empty : PhasesInv emptyTrackerState := by
  constructor
  · intro id t h
    simp [emptyTrackerState, mapGet] at h
  · intro t h
    simp [emptyTrackerState] at h

theorem applyOps_phasesInv (ops : List TrackerOp) :
    PhasesInv (applyOps ops) := by
  have key : ∀ (l : List TrackerOp) (st : TrackerState), PhasesInv st →
      PhasesInv (l.foldl applyOp st) := by
    intro l
    induction l with
    | nil => exact fun st h => h
    | cons op rest ih => exact fun st h => ih _ (applyOp_phasesInv st op h)
  exact key ops emptyTrackerState phasesInv_empty

/-- C10 counterexample: immediately after `createTaskTracker` the observable
record has `errors = []` — the claim that the errors sequence is non-empty
at every point after creation is false — while its phase list is exactly the
initialization singleton. -/
theorem c10_errors_empty_right_after_creation :
    (getTaskStatus (createTaskTracker emptyTrackerState 0 "t1" "demo"
        "medium") "t1").map (fun t => t.errors) = some [] ∧
    (getTaskStatus (createTaskTracker emptyTrackerState 0 "t1" "demo"
        "medium") "t1").map (fun t => t.phases.map (fun p => p.type))
      = some ["initialization"] := ⟨rfl, rfl⟩

/-- C10 amended: for every tracked task, at every point after creation the
phases sequence is non-empty and its first element has type
`initialization`, and phases are append-only — every tracker operation
either leaves an observable record untouched, extends its phase list on the
right (so its length never decreases; for an active record this holds for
every operation except a `createTaskTracker` reusing the same id, which
starts a fresh record), or archives it unchanged up to appended phases.
The errors sequence, however, starts EMPTY at creation (it only grows once
`recordError` is called), so the claim's non-emptiness of `errors` fails. -/
theorem c10_phases_init_and_append_only (ops : List TrackerOp) :
    PhasesInv (applyOps ops) ∧
    (∀ op taskId t t',
      (∀ now d p, op ≠ TrackerOp.create now taskId d p) →
      mapGet (applyOps ops).activeTasks taskId = some t →
      mapGet (applyOp (applyOps ops) op).activeTasks taskId = some t' →
      phasesExtends t t') ∧
    (∀ op t', t' ∈ (applyOp (applyOps ops) op).completedTasks →
      t' ∈ (applyOps ops).completedTasks ∨
      ∃ taskId t, mapGet (applyOps ops).activeTasks taskId = some t ∧
        phasesExtends t t') := by
  refine ⟨applyOps_phasesInv ops, ?_, ?_⟩
  · intro op taskId t t' hne hb ha
    exact applyOp_actMono_of_ne_create (applyOps ops) op taskId hne t t' hb ha
  · intro op t' ht'
    exact applyOp_compMono (applyOps ops) op t' ht'

/-- C10 witness: recording one extra phase on a freshly created task extends
its phase list. -/
theorem c10_append_only_witness :
    PhasesInv (applyOps [TrackerOp.create 0 "t1" "demo" "medium"]) ∧
    ∃ t t',
      mapGet (applyOps [TrackerOp.create 0 "t1" "demo"
          "medium"]).activeTasks "t1" = some t ∧
      mapGet (applyOp (applyOps [TrackerOp.create 0 "t1" "demo" "medium"])
          (TrackerOp.addPhase 5 "t1" "work" "step" "info" none)).activeTasks
          "t1" = some t' ∧
      phasesExtends t t' := by
  have h := c10_phases_init_and_append_only [TrackerOp.create 0 "t1" "demo" "medium"]
  refine ⟨h.1, _, _, rfl, rfl, ?_⟩
  exact h.2.1 (TrackerOp.addPhase 5 "t1" "work" "step" "info" none) "t1" _ _
    (fun now d p hc => TrackerOp.noConfusion hc) rfl rfl

end MultiAgentDsl
